import Mathlib

/-!
# AVC test device: serial motor console (`main.cpp`)

A shallow embedding of `main.cpp`: the command table, the six command
handlers, the three asynchronous handlers, the dispatcher (lines 147-155 of
`main`) and the byte-at-a-time console loop (lines 129-146).

Conventions of the embedding.

* A C string is the list of its characters up to, and without, the
  terminating NUL.
* The globals `motor_power`, `motor_dir`, `counts`, the LEDs and the timer
  reading are fields of `State`.  The locals `cmd` and `arg` of `main` live
  across loop iterations, so they are fields of `State` too.
* Calls on the motor shield `ams` are appended to the trace `State.ams`;
  `printf` writes are appended to `State.stdout`, one entry per call;
  characters written through the serial object `sp` are appended to
  `State.sp`.
* The `float` argument of `SetMotorPower` is kept as the exact rational it
  denotes (`motor_power / 100.0f` is the rational `motor_power / 100`).
* Executions that C and C++ leave undefined (division by zero, a write past
  the end of a fixed buffer, the end of a value-returning function reached
  without a `return`) are the error results of `Except Fault`.
-/

namespace AvcTestDevice

/-! ## Constants and types -/

/-- Size of the `cmd` buffer and of `cmd_name` (`#define CMD_NAME_LEN 32`). -/
def CMD_NAME_LEN : Nat := 32

/-- Size of the `arg` buffer (`#define CMD_ARG_LEN 32`). -/
def CMD_ARG_LEN : Nat := 32

/-- Size of the receive buffer (`char rx_buf[128]`). -/
def RX_BUF_LEN : Nat := 128

/-- The enum `MOTOR_DIRECTION` (values 0 and 1). -/
inductive MOTOR_DIRECTION where
  | MOTOR_FWD
  | MOTOR_REV
  deriving DecidableEq, Repr

/-- The enum `LED_STATE` (`LED_OFF = 0`, `LED_ON = 1`). -/
inductive LED_STATE where
  | LED_OFF
  | LED_ON
  deriving DecidableEq, Repr

/-- Modelled from the spec: `ArduinoMotorShield.hpp` is not among the sources, so
the enum `ArduinoMotorShield::MotorDirection_e` is taken from the spec's
actuator contract `set_polarity(direction)` with the two polarities forward
and reverse, `MOTOR_FORWARD` having the value 0 and the other polarity the
value 1. -/
inductive MotorDirection_e where
  | MOTOR_FORWARD
  | MOTOR_BACKWARD
  deriving DecidableEq, Repr

/-- The cast `(ArduinoMotorShield::MotorDirection_e)dir` of `set_direction`: it
keeps the integer value of the enumerator. -/
def MOTOR_DIRECTION.toShield : MOTOR_DIRECTION → MotorDirection_e
  | .MOTOR_FWD => .MOTOR_FORWARD
  | .MOTOR_REV => .MOTOR_BACKWARD

/-- The integer value of a `MOTOR_DIRECTION`, as `printf("%d", dir)` prints it. -/
def MOTOR_DIRECTION.toInt : MOTOR_DIRECTION → Int
  | .MOTOR_FWD => 0
  | .MOTOR_REV => 1

/-- A call on the motor shield `ams`; the motor argument is always `MOTOR_A` and
is left out. -/
inductive ActuatorCall where
  | SetMotorPolarity (direction : MotorDirection_e)
  | SetMotorPower (power : ℚ)
  deriving DecidableEq

/-- The function pointers stored in `cmd_table` (`&get_pw`, `&set_pw`, ...). -/
inductive CMD_PTR_T where
  | get_pw
  | set_pw
  | get_direction
  | set_direction
  | read_speed
  | help
  deriving DecidableEq, Repr

/-- The struct `CMD_TABLE_ENTRY`. -/
structure CMD_TABLE_ENTRY where
  cmd_name : List Char
  cmd : CMD_PTR_T
  help : List Char
  deriving DecidableEq

/-- Executions with undefined behaviour in C and C++. -/
inductive Fault where
  /-- An integer division is executed with divisor 0. -/
  | div_by_zero
  /-- A store past the end of `rx_buf`, `cmd` or `arg`. -/
  | buffer_overflow
  /-- Control flows off the end of a value-returning function, no `return`
  statement having been executed. -/
  | missing_return
  deriving DecidableEq, Repr

/-- The program state: the globals of `main.cpp`, the locals of `main` that live
across iterations, and the traces of the effects on the collaborators. -/
structure State where
  /-- The global `static int motor_power`. -/
  motor_power : Int
  /-- The global `static MOTOR_DIRECTION motor_dir`. -/
  motor_dir : MOTOR_DIRECTION
  /-- The global `static uint32_t counts`. -/
  counts : Nat
  /-- The value `timer.read_ms()` returns now. -/
  timer_ms : Int
  /-- The output pin `led1`. -/
  led1 : LED_STATE
  /-- The output pin `led2`. -/
  led2 : LED_STATE
  /-- The characters stored in `rx_buf` since the last reset of `buf`. -/
  rx_buf : List Char
  /-- The local `char cmd[CMD_NAME_LEN]` of `main`. -/
  cmd : List Char
  /-- The local `char arg[CMD_ARG_LEN]` of `main`. -/
  arg : List Char
  /-- The calls made on the motor shield, oldest first. -/
  ams : List ActuatorCall
  /-- The texts written by `printf`, one entry per call, oldest first. -/
  stdout : List (List Char)
  /-- The characters written through the serial object `sp`. -/
  sp : List Char
  /-- Ghost field: the function pointers called by the dispatcher loop. -/
  invoked : List CMD_PTR_T

/-! ## C library functions -/

/-- The function `isspace` in the C locale. -/
def isspace (c : Char) : Bool :=
  c = ' ' || c = '\t' || c = '\n' || c = '\x0b' || c = '\x0c' || c = '\r'

/-- The function `isdigit`. -/
def isdigit (c : Char) : Bool :=
  48 ≤ c.toNat && c.toNat ≤ 57

/-- The C string stored in a character array: the characters before the first
NUL. -/
def cstr (bytes : List Char) : List Char :=
  bytes.takeWhile (fun c => c.toNat ≠ 0)

/-- The function `strlen`. -/
def strlen (s : List Char) : Nat := s.length

/-- The function `strcmp`: zero when the strings are equal, otherwise negative or
positive with the lexicographic order. -/
def strcmp (a b : List Char) : Int :=
  if a = b then 0 else if a < b then -1 else 1

/-- The function `strncmp`: `strcmp` on the first `n` characters of each string. -/
def strncmp (a b : List Char) (n : Nat) : Int :=
  strcmp (a.take n) (b.take n)

/-- Saturation of `strtol` to the range of a 32-bit `long`. -/
def clamp_long (v : Int) : Int :=
  if v < -2147483648 then -2147483648 else if 2147483647 < v then 2147483647 else v

/-- The value of a run of decimal digits. -/
def digits_value (ds : List Char) : Nat :=
  ds.foldl (fun acc c => acc * 10 + (c.toNat - 48)) 0

/-- The function `atoi`, that is `(int) strtol(s, NULL, 10)`: leading white space
is skipped, an optional sign is read, then the longest run of digits; no
digits give 0. -/
def atoi (s : List Char) : Int :=
  let t := s.dropWhile isspace
  match t with
  | '-' :: r => clamp_long (-(digits_value (r.takeWhile isdigit) : Int))
  | '+' :: r => clamp_long (digits_value (r.takeWhile isdigit) : Int)
  | _ => clamp_long (digits_value (t.takeWhile isdigit) : Int)

/-- The character of a decimal digit, `'0' + d`. -/
def digit_char (d : Nat) : Char := Char.ofNat (48 + d)

/-- Decimal digits of `n` in front of `acc`; `fuel` bounds the number of digits. -/
def decimal_aux : Nat → Nat → List Char → List Char
  | 0, _, acc => acc
  | fuel + 1, n, acc =>
    if n < 10 then digit_char n :: acc
    else decimal_aux fuel (n / 10) (digit_char (n % 10) :: acc)

/-- The decimal text of a natural number. -/
def decimal (n : Nat) : List Char := decimal_aux (n + 1) n []

/-- The text `printf` writes for `%d`. -/
def fmt_d (x : Int) : List Char :=
  if x < 0 then '-' :: decimal x.natAbs else decimal x.toNat

/-- Conversion of an unsigned 32-bit value to `int`. -/
def to_int (n : Nat) : Int :=
  if n % 4294967296 < 2147483648 then (n % 4294967296 : Nat)
  else ((n % 4294967296 : Nat) : Int) - 4294967296

/-- Conversion of an `int` to `uint32_t`. -/
def to_uint32 (x : Int) : Nat := (x % 4294967296).toNat

/-- One `%s` directive of `sscanf`: white space is skipped, then the characters
up to the next white space are the token; `none` when the input ends before a
token starts. The second component is the unread input. -/
def scan_s (input : List Char) : Option (List Char × List Char) :=
  let t := input.dropWhile isspace
  if t = [] then none
  else some (t.takeWhile (fun c => !isspace c), t.dropWhile (fun c => !isspace c))

/-! ## Command table -/

/-- The global `cmd_table`. -/
def cmd_table : List CMD_TABLE_ENTRY :=
  [ ⟨"pwr?".toList, .get_pw, "Print motor power".toList⟩,
    ⟨"pwr".toList, .set_pw, "Set motor power".toList⟩,
    ⟨"dir?".toList, .get_direction, "Print motor direction".toList⟩,
    ⟨"dir".toList, .set_direction, "Set motor direction".toList⟩,
    ⟨"spd?".toList, .read_speed, "Print motor speed (rpm)".toList⟩,
    ⟨"help".toList, .help, "Print some nice help".toList⟩ ]

/-- The constant `n_cmds`. -/
def n_cmds : Nat := cmd_table.length

/-! ## Command handlers

A handler takes its argument string and the state, and gives the value it
returns and the new state, or the fault of an undefined execution. -/

/-- The result of a handler. -/
abbrev Result := Except Fault (Option Int × State)

/-- Appends one `printf` write to the state. -/
def State.printf (s : State) (text : List Char) : State :=
  { s with stdout := s.stdout ++ [text] }

/-- Appends one call on the motor shield to the state. -/
def State.call_ams (s : State) (c : ActuatorCall) : State :=
  { s with ams := s.ams ++ [c] }

/-- The handler `get_pw` (lines 164-168). -/
def get_pw (_arg : List Char) (s : State) : Result :=
  let s := s.printf ("pwr = ".toList ++ fmt_d s.motor_power ++ "\n".toList)
  .ok (some 0, s)

/-- The handler `set_pw` (lines 173-181). -/
def set_pw (arg : List Char) (s : State) : Result :=
  let pw_val : Int := atoi arg
  let s := s.printf ("setting pwr = ".toList ++ fmt_d pw_val ++ "\n".toList)
  let s := { s with motor_power := pw_val }
  let s := s.call_ams (.SetMotorPower ((s.motor_power : ℚ) / 100))
  .ok (some 0, s)

/-- The handler `get_direction` (lines 186-204). The `default` branch of the
switch has no counterpart: `motor_dir` only ever holds one of the two
enumerators. -/
def get_direction (_arg : List Char) (s : State) : Result :=
  let msg : List Char :=
    match s.motor_dir with
    | .MOTOR_FWD => "fwd".toList
    | .MOTOR_REV => "rev".toList
  let s := s.printf ("dir = ".toList ++ msg ++ "\n".toList)
  .ok (some 0, s)

/-- The handler `set_direction` (lines 210-238). -/
def set_direction (arg : List Char) (s : State) : Result :=
  let go (dir : MOTOR_DIRECTION) : Result :=
    let s := if s.motor_dir ≠ dir then s.call_ams (.SetMotorPower 0) else s
    let s := { s with motor_dir := dir }
    let s := s.call_ams (.SetMotorPolarity dir.toShield)
    let s := s.call_ams (.SetMotorPower ((s.motor_power : ℚ) / 100))
    let s := s.printf ("Setting motor direction to ".toList ++ fmt_d dir.toInt ++ "\n".toList)
    .ok (some 0, s)
  if strcmp arg "fwd".toList = 0 then go .MOTOR_FWD
  else if strcmp arg "rev".toList = 0 then go .MOTOR_REV
  else .ok (some (-1), s)

/-- The handler `read_speed` (lines 268-273). In `(int)(60 * 1000) / counts` the
`int` 60000 is converted to the unsigned type of `counts`, the division is
unsigned, and the quotient is converted to `int`. There is no test of
`counts`: with `counts = 0` the division is executed with divisor 0. -/
def read_speed (_arg : List Char) (s : State) : Result :=
  if s.counts = 0 then .error .div_by_zero
  else
    let rpm : Int := to_int (60000 / s.counts)
    let s := s.printf ("speed = ".toList ++ fmt_d rpm ++ "\n".toList)
    .ok (some 0, s)

/-- The loop of `help` (lines 278-281): one `printf` per table entry, in table
order. -/
def help_loop (s : State) : State :=
  cmd_table.foldl
    (fun (s : State) e => s.printf (e.cmd_name ++ ": ".toList ++ e.help ++ "\n".toList)) s

/-- The handler `help` (lines 276-282). After its loop the function `int help`
reaches its closing brace: there is no `return` statement, and flowing off the
end of a value-returning function is undefined. -/
def help (_arg : List Char) (s : State) : Result :=
  let _s := help_loop s
  .error .missing_return

/-- The call through a function pointer of the table, `cmd_table[i].cmd(arg)`. -/
def CMD_PTR_T.call : CMD_PTR_T → List Char → State → Result
  | .get_pw => AvcTestDevice.get_pw
  | .set_pw => AvcTestDevice.set_pw
  | .get_direction => AvcTestDevice.get_direction
  | .set_direction => AvcTestDevice.set_direction
  | .read_speed => AvcTestDevice.read_speed
  | .help => AvcTestDevice.help

/-! ## Asynchronous handlers -/

/-- The rising-edge handler `counter_read_reset` (lines 243-248). -/
def counter_read_reset (s : State) : State :=
  let s := { s with counts := to_uint32 s.timer_ms }
  let s := { s with timer_ms := 0 }
  { s with led1 := .LED_ON }

/-- The falling-edge handler `led_reset` (lines 253-256). -/
def led_reset (s : State) : State :=
  { s with led1 := .LED_OFF }

/-- The negation `!led` of an output pin. -/
def LED_STATE.not : LED_STATE → LED_STATE
  | .LED_OFF => .LED_ON
  | .LED_ON => .LED_OFF

/-- The heartbeat handler `led2_blink` (lines 263-266). -/
def led2_blink (s : State) : State :=
  { s with led2 := s.led2.not }

/-- Passage of `d` milliseconds on the free-running timer, no handler running. -/
def elapse (d : Nat) (s : State) : State :=
  { s with timer_ms := s.timer_ms + d }

/-! ## Dispatcher and console loop -/

/-- The call `sscanf(rx_buf, "%s %s", cmd, arg)` of line 147: its return value and
the state with the assigned buffers. A token of `CMD_NAME_LEN` characters or
more does not fit `cmd` with its NUL, and likewise for `arg`. -/
def sscanf_ss (rx : List Char) (s : State) : Except Fault (Int × State) :=
  match scan_s (cstr rx) with
  | none => .ok (-1, s)
  | some (tok1, rest1) =>
    if CMD_NAME_LEN ≤ tok1.length then .error .buffer_overflow
    else
      let s := { s with cmd := tok1 }
      match scan_s rest1 with
      | none => .ok (1, s)
      | some (tok2, _) =>
        if CMD_ARG_LEN ≤ tok2.length then .error .buffer_overflow
        else .ok (2, { s with arg := tok2 })

/-- The lookup loop of lines 148-155 over the remaining table entries: the first
entry whose name matches the start of `cmd` has its handler called, and the
loop ends. -/
def dispatch_loop : List CMD_TABLE_ENTRY → State → Except Fault State
  | [], s => .ok s
  | e :: rest, s =>
    if strncmp s.cmd e.cmd_name (strlen e.cmd_name) = 0 then
      (e.cmd.call s.arg { s with invoked := s.invoked ++ [e.cmd] }).map Prod.snd
    else dispatch_loop rest s

/-- Lines 147-155 of `main`: the completed line in `rx_buf` is scanned and the
command looked up and called. -/
def dispatch (s : State) (line : List Char) : Except Fault State :=
  match sscanf_ss line s with
  | .error f => .error f
  | .ok (_, s1) => dispatch_loop cmd_table s1

/-- One character read by the console loop (lines 133-145, then 147-155 when the
character ends the line). -/
def console_char (s : State) (c : Char) : Except Fault State :=
  if c = '\r' ∨ c = '\n' then
    if RX_BUF_LEN ≤ s.rx_buf.length then .error .buffer_overflow
    else
      let line := s.rx_buf
      let s := { s with rx_buf := [] }
      let s := { s with sp := s.sp ++ ['\n'] }
      dispatch s line
  else
    let s := { s with sp := s.sp ++ [c] }
    if RX_BUF_LEN ≤ s.rx_buf.length then .error .buffer_overflow
    else .ok { s with rx_buf := s.rx_buf ++ [c] }

/-- The state when `main` enters its loop (lines 110-126); `cmd0` and `arg0` are
the indeterminate first contents of the uninitialised arrays `cmd` and `arg`;
the pin `led2` starts at its constructor level 0. -/
def startup (cmd0 arg0 : List Char) : State :=
  let motor_power : Int := 0
  { motor_power := motor_power
    motor_dir := .MOTOR_FWD
    counts := 0
    timer_ms := 0
    led1 := .LED_ON
    led2 := .LED_OFF
    rx_buf := []
    cmd := cmd0
    arg := arg0
    ams := [.SetMotorPolarity .MOTOR_FORWARD, .SetMotorPower (motor_power : ℚ)]
    stdout := []
    sp := "AVC Test Device Ready\n".toList
    invoked := [] }

/-- The dispatch of a sequence of command lines, one after the other. It stops at
the first line whose execution is undefined, and gives the state reached and
that fault. -/
def run : State → List (List Char) → State × Option Fault
  | s, [] => (s, none)
  | s, line :: rest =>
    match dispatch s line with
    | .ok s1 => run s1 rest
    | .error f => (s, some f)

/-- The safety condition on an actuator trace, given the polarity and the power
last written before it (`none` when nothing was written yet): every
`SetMotorPolarity` whose polarity differs from the polarity written before
(so: a polarity was written before, and it is not this one) comes when the
last `SetMotorPower` was a call with power 0. -/
def PolaritySafe : Option MotorDirection_e → Option ℚ → List ActuatorCall → Prop
  | _, _, [] => True
  | pol, _, .SetMotorPower q :: rest => PolaritySafe pol (some q) rest
  | pol, pw, .SetMotorPolarity d :: rest =>
    (pol = none ∨ pol = some d ∨ pw = some 0) ∧ PolaritySafe (some d) pw rest

/-- The safety condition is decidable. -/
instance PolaritySafe.decidable :
    ∀ (pol : Option MotorDirection_e) (pw : Option ℚ) (tr : List ActuatorCall),
      Decidable (PolaritySafe pol pw tr)
  | _, _, [] => isTrue trivial
  | pol, _, .SetMotorPower q :: rest => PolaritySafe.decidable pol (some q) rest
  | _, pw, .SetMotorPolarity d :: rest =>
    @instDecidableAnd _ _ inferInstance (PolaritySafe.decidable (some d) pw rest)

/-! ## Definitions used to state the properties -/

/-- The polarity last written to the motor shield after a trace, `pol` being the
polarity written before it. -/
def last_polarity : Option MotorDirection_e → List ActuatorCall → Option MotorDirection_e
  | pol, [] => pol
  | pol, .SetMotorPower _ :: rest => last_polarity pol rest
  | _, .SetMotorPolarity d :: rest => last_polarity (some d) rest

/-- The power last written to the motor shield after a trace, `pw` being the power
written before it. -/
def last_power : Option ℚ → List ActuatorCall → Option ℚ
  | pw, [] => pw
  | _, .SetMotorPower q :: rest => last_power (some q) rest
  | pw, .SetMotorPolarity _ :: rest => last_power pw rest

/-- What one handler call does to the actuator trace and to `motor_dir`. -/
inductive TraceStep (s s1 : State) : Prop where
  | none (h1 : s1.ams = s.ams) (h2 : s1.motor_dir = s.motor_dir)
  | power (q : ℚ) (h1 : s1.ams = s.ams ++ [.SetMotorPower q]) (h2 : s1.motor_dir = s.motor_dir)
  | same (q : ℚ)
      (h1 : s1.ams = s.ams ++ [.SetMotorPolarity s.motor_dir.toShield, .SetMotorPower q])
      (h2 : s1.motor_dir = s.motor_dir)
  | change (q : ℚ)
      (h1 : s1.ams = s.ams ++
        [.SetMotorPower 0, .SetMotorPolarity s1.motor_dir.toShield, .SetMotorPower q])

/-- The invariant behind the polarity safety of the trace: the trace extends the
two startup calls safely, and the polarity last written is that of `motor_dir`. -/
def TraceInv (s : State) : Prop :=
  ∃ tr, s.ams = [.SetMotorPolarity .MOTOR_FORWARD, .SetMotorPower 0] ++ tr ∧
    PolaritySafe (some .MOTOR_FORWARD) (some 0) tr ∧
    last_polarity (some .MOTOR_FORWARD) tr = some s.motor_dir.toShield

/-- The command token of a direction: `"fwd"` for `MOTOR_FWD`, `"rev"` for
`MOTOR_REV`. -/
def MOTOR_DIRECTION.token : MOTOR_DIRECTION → List Char
  | .MOTOR_FWD => "fwd".toList
  | .MOTOR_REV => "rev".toList

/-- An argument string parses as an integer when, after leading white space and
an optional sign, it starts with a digit. -/
def has_leading_integer (s : List Char) : Bool :=
  match s.dropWhile isspace with
  | '-' :: r => (r.head?.map isdigit).getD false
  | '+' :: r => (r.head?.map isdigit).getD false
  | t => (t.head?.map isdigit).getD false

/-- The entry at which the lookup loop of lines 148-155 stops for the command
`cmd`: the first entry of the table whose `strncmp` test gives 0, if any. -/
def find_cmd (cmd : List Char) : List CMD_TABLE_ENTRY → Option CMD_TABLE_ENTRY
  | [] => none
  | e :: rest =>
    if strncmp cmd e.cmd_name (strlen e.cmd_name) = 0 then some e else find_cmd cmd rest

/-- The console loop of `main` on a sequence of received characters. It stops at
the first character whose processing is undefined, and gives the state reached
and that fault. -/
def console_run : State → List Char → State × Option Fault
  | s, [] => (s, none)
  | s, c :: rest =>
    match console_char s c with
    | .ok s1 => console_run s1 rest
    | .error f => (s, some f)

/-- The text `help` prints for one table entry, `"%s: %s\n"`. -/
def help_line (e : CMD_TABLE_ENTRY) : List Char :=
  e.cmd_name ++ ": ".toList ++ e.help ++ "\n".toList

/-- An actuator call with a power fraction in `[0.0, 1.0]`, or a polarity call. -/
def power_call_in_range : ActuatorCall → Prop
  | .SetMotorPower q => 0 ≤ q ∧ q ≤ 1
  | .SetMotorPolarity _ => True

/-- The stored power is in `0..100` and every power fraction written to the
actuator is in `[0.0, 1.0]`. -/
def PowerInRange (s : State) : Prop :=
  0 ≤ s.motor_power ∧ s.motor_power ≤ 100 ∧ ∀ c ∈ s.ams, power_call_in_range c

/-- The integer that dispatching `line` in state `s` hands to `set_pw`: the value
`atoi` gives for the argument `set_pw` is called with, when the lookup stops at
the entry of `set_pw`; `none` when `set_pw` is not called. -/
def set_pw_value (s : State) (line : List Char) : Option Int :=
  match sscanf_ss line s with
  | .error _ => none
  | .ok (_, s1) =>
    match find_cmd s1.cmd cmd_table with
    | none => none
    | some e => if e.cmd = .set_pw then some (atoi s1.arg) else none

/-- Along the dispatch of `lines` from `s`, every value handed to `set_pw` is in
`0..100`. -/
def power_args_in_range : State → List (List Char) → Bool
  | _, [] => true
  | s, line :: rest =>
    (match set_pw_value s line with
      | some v => decide (0 ≤ v) && decide (v ≤ 100)
      | none => true) &&
    (match dispatch s line with
      | .ok s1 => power_args_in_range s1 rest
      | .error _ => true)

/-- The motor model and the actuator agree: the polarity last written is that of
`motor_dir`, and the power last written is `motor_power / 100`. -/
def InSync (s : State) : Prop :=
  last_polarity none s.ams = some s.motor_dir.toShield ∧
  last_power none s.ams = some ((s.motor_power : ℚ) / 100)

/-! ## Lemmas on the C library functions -/

theorem digit_char_toNat (n : Nat) (h : n < 10) : (digit_char n).toNat = 48 + n := by
  revert n; decide

theorem isdigit_digit_char (n : Nat) (h : n < 10) : isdigit (digit_char n) = true := by
  revert n; decide

theorem isdigit_not_isspace (c : Char) (h : isdigit c = true) : isspace c = false := by
  cases hs : isspace c with
  | false => rfl
  | true =>
    exfalso
    simp only [isspace, Bool.or_eq_true, decide_eq_true_eq] at hs
    rcases hs with ((((rfl | rfl) | rfl) | rfl) | rfl) | rfl <;> revert h <;> decide

theorem isdigit_ne_nul (c : Char) (h : isdigit c = true) : c.toNat ≠ 0 := by
  simp only [isdigit, Bool.and_eq_true, decide_eq_true_eq] at h
  omega

theorem decimal_aux_digits (fuel n : Nat) (acc : List Char)
    (hacc : ∀ c ∈ acc, isdigit c = true) :
    ∀ c ∈ decimal_aux fuel n acc, isdigit c = true := by
  induction fuel generalizing n acc with
  | zero => simpa [decimal_aux] using hacc
  | succ fuel ih =>
    unfold decimal_aux
    split
    · intro c hc
      rcases List.mem_cons.mp hc with rfl | hc
      · exact isdigit_digit_char n (by assumption)
      · exact hacc c hc
    · apply ih
      intro c hc
      rcases List.mem_cons.mp hc with rfl | hc
      · exact isdigit_digit_char _ (Nat.mod_lt _ (by decide))
      · exact hacc c hc

theorem decimal_aux_ne_nil (fuel n : Nat) (acc : List Char) :
    decimal_aux (fuel + 1) n acc ≠ [] := by
  induction fuel generalizing n acc with
  | zero =>
    unfold decimal_aux
    split
    · simp
    · simp [decimal_aux]
  | succ fuel ih =>
    unfold decimal_aux
    split
    · simp
    · exact ih _ _

theorem digits_value_decimal_aux (fuel n : Nat) (acc : List Char) (h : n < fuel) :
    (decimal_aux fuel n acc).foldl (fun a c => a * 10 + (c.toNat - 48)) 0
      = acc.foldl (fun a c => a * 10 + (c.toNat - 48)) n := by
  induction fuel generalizing n acc with
  | zero => omega
  | succ fuel ih =>
    unfold decimal_aux
    split
    · rename_i h10
      simp [List.foldl_cons, digit_char_toNat n h10]
    · rename_i h10
      rw [ih (n / 10) _ (by omega)]
      simp only [List.foldl_cons, digit_char_toNat (n % 10) (Nat.mod_lt _ (by decide))]
      congr 1
      omega

theorem decimal_digits (n : Nat) : ∀ c ∈ decimal n, isdigit c = true :=
  decimal_aux_digits _ _ _ (by simp)

theorem decimal_ne_nil (n : Nat) : decimal n ≠ [] := decimal_aux_ne_nil _ _ _

theorem digits_value_decimal (n : Nat) : digits_value (decimal n) = n := by
  unfold digits_value decimal
  rw [digits_value_decimal_aux _ _ _ (Nat.lt_succ_self n)]
  rfl

theorem takeWhile_all {α : Type} (p : α → Bool) (l : List α) (h : ∀ c ∈ l, p c = true) :
    l.takeWhile p = l := by
  induction l with
  | nil => rfl
  | cons a l ih =>
    rw [List.takeWhile_cons, h a (List.mem_cons_self _ _)]
    simp only [if_true]
    rw [ih (fun c hc => h c (List.mem_cons_of_mem _ hc))]

theorem atoi_digits (c : Char) (r : List Char) (hc : isdigit c = true) :
    atoi (c :: r) = clamp_long (digits_value ((c :: r).takeWhile isdigit)) := by
  have hs : isspace c = false := isdigit_not_isspace c hc
  unfold atoi
  simp only [List.dropWhile_cons, hs, Bool.false_eq_true, if_false]
  split
  · rename_i h; injection h with h1 _; subst h1; exact absurd hc (by decide)
  · rename_i h; injection h with h1 _; subst h1; exact absurd hc (by decide)
  · rfl

theorem atoi_decimal (n : Nat) (h : n ≤ 2147483647) : atoi (decimal n) = n := by
  have hd := decimal_digits n
  cases hl : decimal n with
  | nil => exact absurd hl (decimal_ne_nil n)
  | cons c r =>
    rw [hl] at hd
    rw [atoi_digits c r (hd c (List.mem_cons_self _ _)), takeWhile_all _ _ hd, ← hl,
      digits_value_decimal]
    unfold clamp_long
    split
    · omega
    · split
      · omega
      · rfl

theorem atoi_fmt_d (p : Int) (h0 : 0 ≤ p) (h1 : p ≤ 2147483647) : atoi (fmt_d p) = p := by
  unfold fmt_d
  rw [if_neg (by omega), atoi_decimal _ (by omega)]
  omega

theorem fmt_d_digits (p : Int) (h0 : 0 ≤ p) : ∀ c ∈ fmt_d p, isdigit c = true := by
  unfold fmt_d
  rw [if_neg (by omega)]
  exact decimal_digits _

theorem fmt_d_ne_nil (p : Int) : fmt_d p ≠ [] := by
  unfold fmt_d
  split
  · simp
  · exact decimal_ne_nil _

/-! ## Lemmas on the actuator trace -/

theorem last_polarity_append (pol : Option MotorDirection_e) (t1 t2 : List ActuatorCall) :
    last_polarity pol (t1 ++ t2) = last_polarity (last_polarity pol t1) t2 := by
  induction t1 generalizing pol with
  | nil => rfl
  | cons c t1 ih => cases c <;> simp [last_polarity, ih]

theorem last_power_append (pw : Option ℚ) (t1 t2 : List ActuatorCall) :
    last_power pw (t1 ++ t2) = last_power (last_power pw t1) t2 := by
  induction t1 generalizing pw with
  | nil => rfl
  | cons c t1 ih => cases c <;> simp [last_power, ih]

theorem polaritySafe_append (pol : Option MotorDirection_e) (pw : Option ℚ)
    (t1 t2 : List ActuatorCall) :
    PolaritySafe pol pw (t1 ++ t2) ↔
      PolaritySafe pol pw t1 ∧ PolaritySafe (last_polarity pol t1) (last_power pw t1) t2 := by
  induction t1 generalizing pol pw with
  | nil => simp [PolaritySafe, last_polarity, last_power]
  | cons c t1 ih =>
    cases c <;> simp [PolaritySafe, last_polarity, last_power, ih, and_assoc]

theorem polaritySafe_rejects_change_under_power :
    ¬ PolaritySafe (some .MOTOR_FORWARD) (some 0)
      [.SetMotorPower 1, .SetMotorPolarity .MOTOR_BACKWARD] := by
  simp [PolaritySafe]

theorem help_fault (arg : List Char) (s : State) : help arg s = .error .missing_return := rfl

theorem help_not_ok (arg : List Char) (s s1 : State) (r : Option Int) :
    help arg s ≠ .ok (r, s1) := by
  rw [help_fault]
  simp

theorem call_traceStep (p : CMD_PTR_T) (arg : List Char) (s s1 : State) (r : Option Int)
    (h : p.call arg s = .ok (r, s1)) : TraceStep s s1 := by
  cases p
  · simp only [CMD_PTR_T.call, get_pw, Except.ok.injEq, Prod.mk.injEq] at h
    obtain ⟨-, rfl⟩ := h
    exact .none rfl rfl
  · simp only [CMD_PTR_T.call, set_pw, Except.ok.injEq, Prod.mk.injEq] at h
    obtain ⟨-, rfl⟩ := h
    exact .power _ rfl rfl
  · simp only [CMD_PTR_T.call, get_direction, Except.ok.injEq, Prod.mk.injEq] at h
    obtain ⟨-, rfl⟩ := h
    exact .none rfl rfl
  · simp only [CMD_PTR_T.call, set_direction] at h
    split at h
    · simp only [Except.ok.injEq, Prod.mk.injEq] at h
      obtain ⟨-, rfl⟩ := h
      by_cases hd : s.motor_dir = .MOTOR_FWD
      · refine .same (s.motor_power / 100) ?_ ?_ <;> simp [State.call_ams, State.printf, hd]
      · refine .change (s.motor_power / 100) ?_
        simp [State.call_ams, State.printf, hd]
    · split at h
      · simp only [Except.ok.injEq, Prod.mk.injEq] at h
        obtain ⟨-, rfl⟩ := h
        by_cases hd : s.motor_dir = .MOTOR_REV
        · refine .same (s.motor_power / 100) ?_ ?_ <;> simp [State.call_ams, State.printf, hd]
        · refine .change (s.motor_power / 100) ?_
          simp [State.call_ams, State.printf, hd]
      · simp only [Except.ok.injEq, Prod.mk.injEq] at h
        obtain ⟨-, rfl⟩ := h
        exact .none rfl rfl
  · simp only [CMD_PTR_T.call, read_speed] at h
    split at h
    · exact absurd h (by simp)
    · simp only [Except.ok.injEq, Prod.mk.injEq] at h
      obtain ⟨-, rfl⟩ := h
      exact .none rfl rfl
  · exact absurd h (help_not_ok arg s s1 r)

theorem sscanf_ss_fields (line : List Char) (s s1 : State) (n : Int)
    (h : sscanf_ss line s = .ok (n, s1)) :
    s1 = { s with cmd := s1.cmd, arg := s1.arg } := by
  unfold sscanf_ss at h
  split at h
  · simp only [Except.ok.injEq, Prod.mk.injEq] at h
    obtain ⟨-, rfl⟩ := h
    rfl
  · split at h
    · exact absurd h (by simp)
    · split at h
      · simp only [Except.ok.injEq, Prod.mk.injEq] at h
        obtain ⟨-, rfl⟩ := h
        rfl
      · split at h
        · exact absurd h (by simp)
        · simp only [Except.ok.injEq, Prod.mk.injEq] at h
          obtain ⟨-, rfl⟩ := h
          rfl

theorem dispatch_loop_cases (tbl : List CMD_TABLE_ENTRY) (s s2 : State)
    (h : dispatch_loop tbl s = .ok s2) :
    s2 = s ∨ ∃ e ∈ tbl, ∃ r,
      e.cmd.call s.arg { s with invoked := s.invoked ++ [e.cmd] } = .ok (r, s2) := by
  induction tbl with
  | nil =>
    simp only [dispatch_loop, Except.ok.injEq] at h
    exact .inl h.symm
  | cons e rest ih =>
    unfold dispatch_loop at h
    split at h
    · right
      refine ⟨e, List.mem_cons_self _ _, ?_⟩
      cases hc : e.cmd.call s.arg { s with invoked := s.invoked ++ [e.cmd] } with
      | error f => rw [hc] at h; exact absurd h (by simp [Except.map])
      | ok v =>
        rw [hc] at h
        simp only [Except.map, Except.ok.injEq] at h
        exact ⟨v.1, by rw [← h]⟩
    · rcases ih h with h1 | ⟨e1, he1, r, hr⟩
      · exact .inl h1
      · exact .inr ⟨e1, List.mem_cons_of_mem _ he1, r, hr⟩

theorem dispatch_traceStep (s s2 : State) (line : List Char)
    (h : dispatch s line = .ok s2) : TraceStep s s2 := by
  unfold dispatch at h
  split at h
  · exact absurd h (by simp)
  · rename_i n s1 hs
    have hf := sscanf_ss_fields line s s1 n hs
    have ha : s1.ams = s.ams := by rw [hf]
    have hd : s1.motor_dir = s.motor_dir := by rw [hf]
    rcases dispatch_loop_cases _ _ _ h with rfl | ⟨e, -, r, hr⟩
    · exact .none ha hd
    · have ht := call_traceStep _ _ _ _ _ hr
      cases ht with
      | none h1 h2 => exact .none (h1.trans ha) (h2.trans hd)
      | power q h1 h2 => exact .power q (by rw [h1]; simp [ha]) (h2.trans hd)
      | same q h1 h2 => exact .same q (by rw [h1]; simp [ha, hd]) (h2.trans hd)
      | change q h1 => exact .change q (by rw [h1]; simp [ha])

theorem traceInv_step (s s1 : State) (h : TraceStep s s1) (hi : TraceInv s) : TraceInv s1 := by
  obtain ⟨tr, htr, hsafe, hlast⟩ := hi
  cases h with
  | none h1 h2 => exact ⟨tr, by rw [h1, htr], hsafe, by rw [h2, hlast]⟩
  | power q h1 h2 =>
    refine ⟨tr ++ [.SetMotorPower q], by rw [h1, htr]; simp, ?_, ?_⟩
    · rw [polaritySafe_append]; exact ⟨hsafe, by simp [PolaritySafe]⟩
    · rw [last_polarity_append, hlast, h2]; rfl
  | same q h1 h2 =>
    refine ⟨tr ++ [.SetMotorPolarity s.motor_dir.toShield, .SetMotorPower q],
      by rw [h1, htr]; simp, ?_, ?_⟩
    · rw [polaritySafe_append, hlast]; exact ⟨hsafe, by simp [PolaritySafe]⟩
    · rw [last_polarity_append, hlast, h2]; rfl
  | change q h1 =>
    refine ⟨tr ++ [.SetMotorPower 0, .SetMotorPolarity s1.motor_dir.toShield,
      .SetMotorPower q], by rw [h1, htr]; simp, ?_, ?_⟩
    · rw [polaritySafe_append]; exact ⟨hsafe, by simp [PolaritySafe]⟩
    · rw [last_polarity_append]; rfl

theorem traceInv_startup (cmd0 arg0 : List Char) : TraceInv (startup cmd0 arg0) :=
  ⟨[], by simp [startup], by simp [PolaritySafe], rfl⟩

theorem traceInv_run (lines : List (List Char)) (s : State) (hi : TraceInv s) :
    TraceInv (run s lines).1 := by
  induction lines generalizing s with
  | nil => exact hi
  | cons line rest ih =>
    unfold run
    cases hd : dispatch s line with
    | error f => exact hi
    | ok s1 => exact ih s1 (traceInv_step s s1 (dispatch_traceStep s s1 line hd) hi)

/-- C1: from the startup state, whatever command lines are dispatched, the actuator
trace is the two startup calls (forward polarity, power 0) followed by calls
among which every `SetMotorPolarity` that changes the polarity comes when the
most recent `SetMotorPower` wrote power 0. -/
theorem C1_polarity_change_only_at_zero_power (cmd0 arg0 : List Char)
    (lines : List (List Char)) :
    ∃ tr, (run (startup cmd0 arg0) lines).1.ams
        = [.SetMotorPolarity .MOTOR_FORWARD, .SetMotorPower 0] ++ tr ∧
      PolaritySafe (some .MOTOR_FORWARD) (some 0) tr := by
  obtain ⟨tr, h1, h2, -⟩ := traceInv_run lines _ (traceInv_startup cmd0 arg0)
  exact ⟨tr, h1, h2⟩

/-! ## Direction changes -/

theorem strcmp_eq_zero (a b : List Char) : strcmp a b = 0 ↔ a = b := by
  unfold strcmp
  split
  · simp [*]
  · split <;> simp [*]

theorem token_ne (d1 d2 : MOTOR_DIRECTION) (h : d1 ≠ d2) : d1.token ≠ d2.token := by
  cases d1 <;> cases d2 <;> first | exact absurd rfl h | decide

theorem set_direction_valid (s : State) (d : MOTOR_DIRECTION) :
    set_direction d.token s = .ok (some 0,
      { s with
        motor_dir := d
        ams := (if s.motor_dir ≠ d then s.ams ++ [.SetMotorPower 0] else s.ams) ++
          [.SetMotorPolarity d.toShield, .SetMotorPower ((s.motor_power : ℚ) / 100)]
        stdout := s.stdout ++
          ["Setting motor direction to ".toList ++ fmt_d d.toInt ++ "\n".toList] }) := by
  cases d
  · have h1 : strcmp MOTOR_DIRECTION.MOTOR_FWD.token "fwd".toList = 0 := by decide
    unfold set_direction
    rw [if_pos h1]
    by_cases hd : s.motor_dir = .MOTOR_FWD <;> simp [State.call_ams, State.printf, hd]
  · have h1 : ¬ strcmp MOTOR_DIRECTION.MOTOR_REV.token "fwd".toList = 0 := by decide
    have h2 : strcmp MOTOR_DIRECTION.MOTOR_REV.token "rev".toList = 0 := by decide
    unfold set_direction
    rw [if_neg h1, if_pos h2]
    by_cases hd : s.motor_dir = .MOTOR_REV <;> simp [State.call_ams, State.printf, hd]

/-- C2: in a state whose direction is not `d2`, `set_direction` with the token of
`d2` returns 0, issues exactly `SetMotorPower(0.0)`, `SetMotorPolarity(d2)`,
`SetMotorPower(motor_power/100)` in that order, leaves `motor_dir = d2` and the
stored power as it was, and a following `get_direction` prints `dir = ` and the
token of `d2`. -/
theorem C2_set_direction_change_sequence (s : State) (d2 : MOTOR_DIRECTION)
    (arg2 : List Char) (h : s.motor_dir ≠ d2) :
    ∃ s1, set_direction d2.token s = .ok (some 0, s1) ∧
      s1.ams = s.ams ++ [.SetMotorPower 0, .SetMotorPolarity d2.toShield,
        .SetMotorPower ((s.motor_power : ℚ) / 100)] ∧
      s1.motor_dir = d2 ∧ s1.motor_power = s.motor_power ∧
      ∃ s2, get_direction arg2 s1 = .ok (some 0, s2) ∧
        s2.stdout = s1.stdout ++ ["dir = ".toList ++ d2.token ++ "\n".toList] ∧
        s2.ams = s1.ams ∧ s2.motor_dir = d2 := by
  refine ⟨_, set_direction_valid s d2, ?_, rfl, rfl, ?_⟩
  · simp [h]
  · refine ⟨_, rfl, ?_, rfl, rfl⟩
    cases d2 <;> rfl

/-- Witness of C2: from the startup state (direction forward) with power 55,
`set_direction("rev")`. -/
theorem C2_set_direction_change_sequence_witness :
    ({ startup [] [] with motor_power := 55 } : State).motor_dir ≠ .MOTOR_REV ∧
    ∃ s1, set_direction "rev".toList { startup [] [] with motor_power := 55 }
        = .ok (some 0, s1) ∧
      s1.ams = ({ startup [] [] with motor_power := 55 } : State).ams ++
        [.SetMotorPower 0, .SetMotorPolarity .MOTOR_BACKWARD,
         .SetMotorPower (((55 : Int) : ℚ) / 100)] ∧
      s1.motor_dir = .MOTOR_REV ∧ s1.motor_power = 55 ∧
      ∃ s2, get_direction [] s1 = .ok (some 0, s2) ∧
        s2.stdout = s1.stdout ++ ["dir = rev\n".toList] ∧
        s2.ams = s1.ams ∧ s2.motor_dir = .MOTOR_REV :=
  ⟨by decide,
   C2_set_direction_change_sequence { startup [] [] with motor_power := 55 } .MOTOR_REV []
     (by decide)⟩

/-- C3: for every argument other than exactly `fwd` and `rev`, `set_direction`
returns -1 and the state is the one it was called in: `motor_dir` and
`motor_power` unchanged, no actuator call, nothing printed. -/
theorem C3_set_direction_invalid (arg : List Char) (s : State)
    (h1 : arg ≠ "fwd".toList) (h2 : arg ≠ "rev".toList) :
    set_direction arg s = .ok (some (-1), s) := by
  unfold set_direction
  rw [if_neg (by rw [strcmp_eq_zero]; exact h1), if_neg (by rw [strcmp_eq_zero]; exact h2)]

/-- Witness of C3: the arguments `sideways`, the empty string, `FWD` and `fwdx` in
the startup state. -/
theorem C3_set_direction_invalid_witness :
    ("sideways".toList ≠ "fwd".toList ∧ "sideways".toList ≠ "rev".toList ∧
      set_direction "sideways".toList (startup [] []) = .ok (some (-1), startup [] [])) ∧
    set_direction [] (startup [] []) = .ok (some (-1), startup [] []) ∧
    set_direction "FWD".toList (startup [] []) = .ok (some (-1), startup [] []) ∧
    set_direction "fwdx".toList (startup [] []) = .ok (some (-1), startup [] []) :=
  ⟨⟨by decide, by decide, C3_set_direction_invalid _ _ (by decide) (by decide)⟩,
   C3_set_direction_invalid _ _ (by decide) (by decide),
   C3_set_direction_invalid _ _ (by decide) (by decide),
   C3_set_direction_invalid _ _ (by decide) (by decide)⟩

/-! ## Scanning and lookup -/

theorem sscanf_ss_none (line : List Char) (s : State) (h : scan_s (cstr line) = none) :
    sscanf_ss line s = .ok (-1, s) := by
  unfold sscanf_ss; rw [h]

theorem sscanf_ss_one (line tok rest : List Char) (s : State)
    (h : scan_s (cstr line) = some (tok, rest)) (hl : tok.length < CMD_NAME_LEN)
    (h2 : scan_s rest = none) :
    sscanf_ss line s = .ok (1, { s with cmd := tok }) := by
  unfold sscanf_ss
  rw [h]
  simp only [h2, if_neg (Nat.not_le.mpr hl)]

theorem sscanf_ss_two (line tok rest tok2 rest2 : List Char) (s : State)
    (h : scan_s (cstr line) = some (tok, rest)) (hl : tok.length < CMD_NAME_LEN)
    (h2 : scan_s rest = some (tok2, rest2)) (hl2 : tok2.length < CMD_ARG_LEN) :
    sscanf_ss line s = .ok (2, { s with cmd := tok, arg := tok2 }) := by
  unfold sscanf_ss
  rw [h]
  simp only [h2, if_neg (Nat.not_le.mpr hl), if_neg (Nat.not_le.mpr hl2)]

theorem strncmp_eq_zero (a b : List Char) (n : Nat) :
    strncmp a b n = 0 ↔ a.take n = b.take n := by
  unfold strncmp; exact strcmp_eq_zero _ _

theorem dispatch_loop_find (tbl : List CMD_TABLE_ENTRY) (s : State) :
    dispatch_loop tbl s =
      match find_cmd s.cmd tbl with
      | none => .ok s
      | some e => (e.cmd.call s.arg { s with invoked := s.invoked ++ [e.cmd] }).map Prod.snd := by
  induction tbl with
  | nil => rfl
  | cons e rest ih =>
    unfold dispatch_loop find_cmd
    split
    · rfl
    · exact ih

theorem find_cmd_name (e : CMD_TABLE_ENTRY) (he : e ∈ cmd_table) :
    find_cmd e.cmd_name cmd_table = some e := by
  simp only [cmd_table, List.mem_cons, List.mem_singleton, List.not_mem_nil, or_false] at he
  rcases he with rfl | rfl | rfl | rfl | rfl | rfl <;> decide

theorem dispatch_loop_name (e : CMD_TABLE_ENTRY) (he : e ∈ cmd_table) (s : State)
    (hc : s.cmd = e.cmd_name) :
    dispatch_loop cmd_table s
      = (e.cmd.call s.arg { s with invoked := s.invoked ++ [e.cmd] }).map Prod.snd := by
  rw [dispatch_loop_find, hc, find_cmd_name e he]

theorem strncmp_strlen (cmd name : List Char) :
    strncmp cmd name (strlen name) = 0 ↔ name <+: cmd := by
  rw [strncmp_eq_zero, strlen, List.take_length, List.prefix_iff_eq_take]
  exact eq_comm

theorem find_cmd_none (cmd : List Char) (tbl : List CMD_TABLE_ENTRY) :
    find_cmd cmd tbl = none ↔ ∀ e ∈ tbl, ¬ e.cmd_name <+: cmd := by
  induction tbl with
  | nil => simp [find_cmd]
  | cons e rest ih =>
    unfold find_cmd
    by_cases h : strncmp cmd e.cmd_name (strlen e.cmd_name) = 0
    · rw [if_pos h]
      simp only [reduceCtorEq, List.mem_cons, forall_eq_or_imp, false_iff, not_and]
      intro h1
      exact absurd ((strncmp_strlen _ _).mp h) h1
    · rw [if_neg h, ih]
      simp only [List.mem_cons, forall_eq_or_imp]
      exact ⟨fun h2 => ⟨fun h3 => h ((strncmp_strlen _ _).mpr h3), h2⟩, fun h2 => h2.2⟩

theorem cstr_eq_self (l : List Char) (h : ∀ c ∈ l, c.toNat ≠ 0) : cstr l = l :=
  takeWhile_all _ _ (by simpa using h)

theorem span_token (tok rest : List Char) (h : ∀ c ∈ tok, isspace c = false)
    (hr : ∀ c ∈ rest.head?, isspace c = true) :
    (tok ++ rest).takeWhile (fun c => !isspace c) = tok ∧
      (tok ++ rest).dropWhile (fun c => !isspace c) = rest := by
  induction tok with
  | nil =>
    cases rest with
    | nil => simp
    | cons c r =>
      have hc : isspace c = true := hr c (by simp)
      simp [List.takeWhile_cons, List.dropWhile_cons, hc]
  | cons a t ih =>
    have ha : isspace a = false := h a (List.mem_cons_self _ _)
    have := ih (fun c hc => h c (List.mem_cons_of_mem _ hc))
    simp [List.takeWhile_cons, List.dropWhile_cons, ha, this]

theorem scan_s_token (tok rest : List Char) (hne : tok ≠ [])
    (h : ∀ c ∈ tok, isspace c = false) (hr : ∀ c ∈ rest.head?, isspace c = true) :
    scan_s (tok ++ rest) = some (tok, rest) := by
  cases tok with
  | nil => exact absurd rfl hne
  | cons a t =>
    have ha : isspace a = false := h a (List.mem_cons_self _ _)
    have hsp := span_token (a :: t) rest h hr
    unfold scan_s
    have hd : ((a :: t) ++ rest).dropWhile isspace = (a :: t) ++ rest := by
      simp [List.dropWhile_cons, ha]
    simp only [hd]
    rw [if_neg (by simp), hsp.1, hsp.2]

theorem scan_s_skip (c : Char) (l : List Char) (hc : isspace c = true) :
    scan_s (c :: l) = scan_s l := by
  unfold scan_s
  simp [List.dropWhile_cons, hc]

theorem scan_s_nil : scan_s [] = none := rfl

theorem decimal_aux_length (fuel n k : Nat) (acc : List Char) (h : n < 10 ^ (k + 1)) :
    (decimal_aux fuel n acc).length ≤ k + 1 + acc.length := by
  induction fuel generalizing n k acc with
  | zero => simp [decimal_aux]
  | succ fuel ih =>
    unfold decimal_aux
    split
    · simp; omega
    · rename_i h10
      cases k with
      | zero => simp at h; omega
      | succ k =>
        have h2 : n / 10 < 10 ^ (k + 1) := by
          rw [Nat.div_lt_iff_lt_mul (by decide)]
          rw [pow_succ] at h
          exact h
        have := ih (n / 10) k (digit_char (n % 10) :: acc) h2
        simp only [List.length_cons] at this
        omega

theorem fmt_d_length (p : Int) (h0 : 0 ≤ p) (h1 : p ≤ 2147483647) : (fmt_d p).length ≤ 10 := by
  unfold fmt_d
  rw [if_neg (by omega)]
  have := decimal_aux_length (p.toNat + 1) p.toNat 9 [] (by norm_num; omega)
  simpa [decimal] using this

theorem fmt_d_not_space (p : Int) (h0 : 0 ≤ p) : ∀ c ∈ fmt_d p, isspace c = false :=
  fun c hc => isdigit_not_isspace c (fmt_d_digits p h0 c hc)

theorem fmt_d_not_nul (p : Int) (h0 : 0 ≤ p) : ∀ c ∈ fmt_d p, c.toNat ≠ 0 :=
  fun c hc => isdigit_ne_nul c (fmt_d_digits p h0 c hc)

theorem sscanf_ss_pwr (p : Int) (s : State) (h0 : 0 ≤ p) (h1 : p ≤ 2147483647) :
    sscanf_ss ("pwr ".toList ++ fmt_d p) s
      = .ok (2, { s with cmd := "pwr".toList, arg := fmt_d p }) := by
  have hline : "pwr ".toList ++ fmt_d p = "pwr".toList ++ (' ' :: fmt_d p) := rfl
  have hc : cstr ("pwr ".toList ++ fmt_d p) = "pwr".toList ++ (' ' :: fmt_d p) := by
    rw [cstr_eq_self, hline]
    intro c hc
    rcases List.mem_append.mp hc with hc | hc
    · exact (by decide : ∀ c ∈ "pwr ".toList, c.toNat ≠ 0) c hc
    · exact fmt_d_not_nul p h0 c hc
  have hlen := fmt_d_length p h0 h1
  refine sscanf_ss_two _ "pwr".toList (' ' :: fmt_d p) (fmt_d p) [] s ?_ (by decide) ?_
    (by unfold CMD_ARG_LEN; omega)
  · rw [hc]
    exact scan_s_token _ _ (by decide) (by decide) (by simp; decide)
  · rw [scan_s_skip _ _ (by decide)]
    have := scan_s_token (fmt_d p) [] (fmt_d_ne_nil p) (fmt_d_not_space p h0) (by simp)
    simpa using this

theorem sscanf_ss_name (name : List Char) (s : State) (hne : name ≠ [])
    (hsp : ∀ c ∈ name, isspace c = false) (hnul : ∀ c ∈ name, c.toNat ≠ 0)
    (hl : name.length < CMD_NAME_LEN) :
    sscanf_ss name s = .ok (1, { s with cmd := name }) := by
  refine sscanf_ss_one name name [] s ?_ hl rfl
  rw [cstr_eq_self _ hnul]
  have := scan_s_token name [] hne hsp (by simp)
  simpa using this

/-! ## Power, speed and the `pwr` dialogue -/

theorem set_pw_eq (arg : List Char) (s : State) :
    set_pw arg s = .ok (some 0,
      { s with
        motor_power := atoi arg
        stdout := s.stdout ++ ["setting pwr = ".toList ++ fmt_d (atoi arg) ++ "\n".toList]
        ams := s.ams ++ [.SetMotorPower ((atoi arg : ℚ) / 100)] }) := rfl

theorem get_pw_eq (arg : List Char) (s : State) :
    get_pw arg s = .ok (some 0,
      { s with stdout := s.stdout ++ ["pwr = ".toList ++ fmt_d s.motor_power ++ "\n".toList] }) :=
  rfl

/-- C4: for an integer `p` from 0 to 100, `set_pw` with the decimal text of `p`
returns 0, stores `motor_power = p`, and issues exactly one actuator call,
`SetMotorPower(p/100)`: no polarity is written, the direction is unchanged; a
following `get_pw` prints `pwr = p`. -/
theorem C4_set_pw_in_range (p : Int) (s : State) (arg2 : List Char)
    (h0 : 0 ≤ p) (h1 : p ≤ 100) :
    ∃ s1, set_pw (fmt_d p) s = .ok (some 0, s1) ∧
      s1.motor_power = p ∧
      s1.ams = s.ams ++ [.SetMotorPower ((p : ℚ) / 100)] ∧
      (∀ pol, last_polarity pol s1.ams = last_polarity pol s.ams) ∧
      s1.motor_dir = s.motor_dir ∧
      ∃ s2, get_pw arg2 s1 = .ok (some 0, s2) ∧
        s2.stdout = s1.stdout ++ ["pwr = ".toList ++ fmt_d p ++ "\n".toList] ∧
        s2.motor_power = p ∧ s2.ams = s1.ams := by
  have ha : atoi (fmt_d p) = p := atoi_fmt_d p h0 (by omega)
  refine ⟨_, set_pw_eq _ s, ?_, ?_, ?_, rfl, _, get_pw_eq _ _, ?_, ?_, rfl⟩
  · exact ha
  · simp only [ha]
  · intro pol
    simp only [last_polarity_append, last_polarity]
  · simp only [ha]
  · exact ha

/-- Witness of C4: `p = 55` in the startup state. -/
theorem C4_set_pw_in_range_witness :
    (0 : Int) ≤ 55 ∧ (55 : Int) ≤ 100 ∧
    ∃ s1, set_pw (fmt_d 55) (startup [] []) = .ok (some 0, s1) ∧
      s1.motor_power = 55 ∧
      s1.ams = (startup [] []).ams ++ [.SetMotorPower (((55 : Int) : ℚ) / 100)] ∧
      (∀ pol, last_polarity pol s1.ams = last_polarity pol (startup [] []).ams) ∧
      s1.motor_dir = (startup [] []).motor_dir ∧
      ∃ s2, get_pw [] s1 = .ok (some 0, s2) ∧
        s2.stdout = s1.stdout ++ ["pwr = ".toList ++ fmt_d 55 ++ "\n".toList] ∧
        s2.motor_power = 55 ∧ s2.ams = s1.ams :=
  ⟨by decide, by decide, C4_set_pw_in_range 55 (startup [] []) [] (by decide) (by decide)⟩

/-- C5, the code at the failing input: in the startup state `counts` is 0, and
`read_speed`, called directly or through the line `spd?`, executes the
division `60000 / counts` with divisor 0; nothing is printed. -/
theorem C5_read_speed_divides_by_zero (cmd0 arg0 arg : List Char) :
    (startup cmd0 arg0).counts = 0 ∧
    read_speed arg (startup cmd0 arg0) = .error .div_by_zero ∧
    dispatch (startup cmd0 arg0) "spd?".toList = .error .div_by_zero := by
  refine ⟨rfl, rfl, ?_⟩
  have h1 := sscanf_ss_name "spd?".toList (startup cmd0 arg0) (by decide) (by decide)
    (by decide) (by decide)
  unfold dispatch
  rw [h1]
  simp only []
  rw [dispatch_loop_name ⟨"spd?".toList, .read_speed, "Print motor speed (rpm)".toList⟩
    (by decide) _ rfl]
  rfl

theorem to_int_small (n : Nat) (h : n < 2147483648) : to_int n = n := by
  unfold to_int
  have : n % 4294967296 = n := Nat.mod_eq_of_lt (by omega)
  rw [this, if_pos h]

/-- C6: when a rising edge comes at timer reading `t`, `0 < t < 2^31`,
`counter_read_reset` stores `counts = t` and resets the timer to 0, and a
following `read_speed` prints `speed = r` with `r` the integer quotient of
60000 by `t` (`r * t ≤ 60000 < (r + 1) * t`). -/
theorem C6_speed_from_interval (s : State) (t : Int) (arg : List Char)
    (ht : s.timer_ms = t) (h0 : 0 < t) (h1 : t < 2147483648) :
    ((counter_read_reset s).counts : Int) = t ∧
    (counter_read_reset s).timer_ms = 0 ∧
    (60000 / t) * t ≤ 60000 ∧ 60000 < (60000 / t + 1) * t ∧
    read_speed arg (counter_read_reset s) = .ok (some 0,
      { counter_read_reset s with
        stdout := (counter_read_reset s).stdout ++
          ["speed = ".toList ++ fmt_d (60000 / t) ++ "\n".toList] }) := by
  have hc : (counter_read_reset s).counts = t.toNat := by
    show to_uint32 s.timer_ms = t.toNat
    rw [ht]; unfold to_uint32
    rw [Int.emod_eq_of_lt (by omega) (by omega)]
  have hne : (counter_read_reset s).counts ≠ 0 := by rw [hc]; omega
  have hq : ((60000 / t.toNat : Nat) : Int) = 60000 / t := by
    rw [Int.natCast_div]
    congr 1
    omega
  have hlt : 60000 / t.toNat < 2147483648 :=
    lt_of_le_of_lt (Nat.div_le_self _ _) (by decide)
  refine ⟨by rw [hc]; omega, rfl, ?_, ?_, ?_⟩
  · exact Int.ediv_mul_le _ (by omega)
  · have := Int.lt_ediv_add_one_mul_self 60000 h0
    linarith
  · unfold read_speed
    rw [if_neg hne, hc, to_int_small _ hlt, hq]
    rfl

/-- Witness of C6: rising edges at 0 ms and at 500 ms after startup; the reply is
`speed = 120`. -/
theorem C6_speed_from_interval_witness :
    (elapse 500 (counter_read_reset (startup [] []))).timer_ms = 500 ∧
    (0 : Int) < 500 ∧ (500 : Int) < 2147483648 ∧
    ((counter_read_reset (elapse 500 (counter_read_reset (startup [] [])))).counts : Int)
      = 500 ∧
    ∃ s1, read_speed [] (counter_read_reset (elapse 500 (counter_read_reset (startup [] []))))
        = .ok (some 0, s1) ∧
      s1.stdout = ["speed = 120\n".toList] :=
  ⟨by decide, by decide, by decide,
   (C6_speed_from_interval (elapse 500 (counter_read_reset (startup [] []))) 500 []
     (by decide) (by decide) (by decide)).1,
   _, (C6_speed_from_interval (elapse 500 (counter_read_reset (startup [] []))) 500 []
     (by decide) (by decide) (by decide)).2.2.2.2, by decide⟩

theorem dispatch_pwr_query (s : State) :
    dispatch s "pwr?".toList = .ok
      { s with
        cmd := "pwr?".toList
        invoked := s.invoked ++ [.get_pw]
        stdout := s.stdout ++ ["pwr = ".toList ++ fmt_d s.motor_power ++ "\n".toList] } := by
  unfold dispatch
  rw [sscanf_ss_name "pwr?".toList _ (by decide) (by decide) (by decide) (by decide)]
  simp only []
  rw [dispatch_loop_name ⟨"pwr?".toList, .get_pw, "Print motor power".toList⟩ (by decide) _ rfl]
  simp only [CMD_PTR_T.call, get_pw_eq, Except.map]

/-- C7: for an integer `p` from 0 to 100, in every state, the line `pwr <p>` is
answered by exactly `setting pwr = <p>` and the line `pwr?` dispatched next by
exactly `pwr = <p>`. -/
theorem C7_pwr_then_query (p : Int) (s : State) (h0 : 0 ≤ p) (h1 : p ≤ 100) :
    ∃ s1, dispatch s ("pwr ".toList ++ fmt_d p) = .ok s1 ∧
      s1.stdout = s.stdout ++ ["setting pwr = ".toList ++ fmt_d p ++ "\n".toList] ∧
      ∃ s2, dispatch s1 "pwr?".toList = .ok s2 ∧
        s2.stdout = s1.stdout ++ ["pwr = ".toList ++ fmt_d p ++ "\n".toList] := by
  have ha : atoi (fmt_d p) = p := atoi_fmt_d p h0 (by omega)
  have e1 : dispatch s ("pwr ".toList ++ fmt_d p) = .ok
      { s with
        cmd := "pwr".toList
        arg := fmt_d p
        invoked := s.invoked ++ [.set_pw]
        motor_power := p
        stdout := s.stdout ++ ["setting pwr = ".toList ++ fmt_d p ++ "\n".toList]
        ams := s.ams ++ [.SetMotorPower ((p : ℚ) / 100)] } := by
    unfold dispatch
    rw [sscanf_ss_pwr p s h0 (by omega)]
    simp only []
    rw [dispatch_loop_name ⟨"pwr".toList, .set_pw, "Set motor power".toList⟩ (by decide) _ rfl]
    simp only [CMD_PTR_T.call, set_pw_eq, ha, Except.map]
  exact ⟨_, e1, rfl, _, dispatch_pwr_query _, rfl⟩

/-- Witness of C7: the test case `p = 55` in the startup state. -/
theorem C7_pwr_then_query_witness :
    (0 : Int) ≤ 55 ∧ (55 : Int) ≤ 100 ∧
    ∃ s1, dispatch (startup [] []) "pwr 55".toList = .ok s1 ∧
      s1.stdout = (startup [] []).stdout ++ ["setting pwr = 55\n".toList] ∧
      ∃ s2, dispatch s1 "pwr?".toList = .ok s2 ∧
        s2.stdout = s1.stdout ++ ["pwr = 55\n".toList] :=
  ⟨by decide, by decide, C7_pwr_then_query 55 (startup [] []) (by decide) (by decide)⟩

/-! ## Command lookup -/

theorem call_invoked (p : CMD_PTR_T) (arg : List Char) (s s1 : State) (r : Option Int)
    (h : p.call arg s = .ok (r, s1)) : s1.invoked = s.invoked := by
  cases p
  · simp only [CMD_PTR_T.call, get_pw, Except.ok.injEq, Prod.mk.injEq] at h
    obtain ⟨-, rfl⟩ := h; rfl
  · simp only [CMD_PTR_T.call, set_pw, Except.ok.injEq, Prod.mk.injEq] at h
    obtain ⟨-, rfl⟩ := h; rfl
  · simp only [CMD_PTR_T.call, get_direction, Except.ok.injEq, Prod.mk.injEq] at h
    obtain ⟨-, rfl⟩ := h; rfl
  · simp only [CMD_PTR_T.call, set_direction] at h
    split at h
    · simp only [Except.ok.injEq, Prod.mk.injEq] at h
      obtain ⟨-, rfl⟩ := h
      by_cases hd : s.motor_dir = .MOTOR_FWD <;> simp [State.call_ams, State.printf, hd]
    · split at h
      · simp only [Except.ok.injEq, Prod.mk.injEq] at h
        obtain ⟨-, rfl⟩ := h
        by_cases hd : s.motor_dir = .MOTOR_REV <;> simp [State.call_ams, State.printf, hd]
      · simp only [Except.ok.injEq, Prod.mk.injEq] at h
        obtain ⟨-, rfl⟩ := h; rfl
  · simp only [CMD_PTR_T.call, read_speed] at h
    split at h
    · exact absurd h (by simp)
    · simp only [Except.ok.injEq, Prod.mk.injEq] at h
      obtain ⟨-, rfl⟩ := h; rfl
  · exact absurd h (help_not_ok arg s s1 r)

theorem sscanf_ss_cmd (line tok rest : List Char) (s s1 : State) (n : Int)
    (htok : scan_s (cstr line) = some (tok, rest)) (hs : sscanf_ss line s = .ok (n, s1)) :
    s1.cmd = tok := by
  unfold sscanf_ss at hs
  rw [htok] at hs
  simp only [] at hs
  split at hs
  · exact absurd hs (by simp)
  · split at hs
    · simp only [Except.ok.injEq, Prod.mk.injEq] at hs
      obtain ⟨-, rfl⟩ := hs; rfl
    · split at hs
      · exact absurd hs (by simp)
      · simp only [Except.ok.injEq, Prod.mk.injEq] at hs
        obtain ⟨-, rfl⟩ := hs; rfl

/-- C8: a line whose command token is exactly the name of a `cmd_table` entry has
the handler of that entry called, on the scanned argument, and no other: the
dispatch is that one call, and the calls made by the lookup loop grow by that
handler alone. The table pairs `pwr?` with `get_pw`, `pwr` with `set_pw`,
`dir?` with `get_direction`, `dir` with `set_direction`, `spd?` with
`read_speed` and `help` with `help`. -/
theorem C8_exact_name_calls_its_handler (e : CMD_TABLE_ENTRY) (s s1 : State)
    (line rest : List Char) (n : Int) (he : e ∈ cmd_table)
    (htok : scan_s (cstr line) = some (e.cmd_name, rest))
    (hs : sscanf_ss line s = .ok (n, s1)) :
    dispatch s line
        = (e.cmd.call s1.arg { s1 with invoked := s.invoked ++ [e.cmd] }).map Prod.snd ∧
      (∀ s2, dispatch s line = .ok s2 → s2.invoked = s.invoked ++ [e.cmd]) ∧
      cmd_table.map (fun e => (e.cmd_name, e.cmd)) =
        [("pwr?".toList, .get_pw), ("pwr".toList, .set_pw), ("dir?".toList, .get_direction),
         ("dir".toList, .set_direction), ("spd?".toList, .read_speed),
         ("help".toList, .help)] := by
  have hc : s1.cmd = e.cmd_name := sscanf_ss_cmd line _ rest s s1 n htok hs
  have hi : s1.invoked = s.invoked := by rw [sscanf_ss_fields line s s1 n hs]
  have hd : dispatch s line
      = (e.cmd.call s1.arg { s1 with invoked := s.invoked ++ [e.cmd] }).map Prod.snd := by
    unfold dispatch
    rw [hs]
    simp only []
    rw [dispatch_loop_name e he s1 hc, hi]
  refine ⟨hd, ?_, rfl⟩
  intro s2 h2
  rw [hd] at h2
  cases hcall : e.cmd.call s1.arg { s1 with invoked := s.invoked ++ [e.cmd] } with
  | error f => rw [hcall] at h2; exact absurd h2 (by simp [Except.map])
  | ok v =>
    rw [hcall] at h2
    simp only [Except.map, Except.ok.injEq] at h2
    rw [← h2]
    exact call_invoked _ _ _ _ v.1 hcall

/-- Witness of C8: the line `pwr?` in the startup state calls `get_pw`, not
`set_pw`. -/
theorem C8_exact_name_calls_its_handler_witness :
    (⟨"pwr?".toList, .get_pw, "Print motor power".toList⟩ : CMD_TABLE_ENTRY) ∈ cmd_table ∧
    scan_s (cstr "pwr?".toList) = some ("pwr?".toList, []) ∧
    sscanf_ss "pwr?".toList (startup [] [])
      = .ok (1, { startup [] [] with cmd := "pwr?".toList }) ∧
    dispatch (startup [] []) "pwr?".toList
      = (get_pw [] { startup [] [] with cmd := "pwr?".toList, invoked := [.get_pw] }).map
          Prod.snd ∧
    (∀ s2, dispatch (startup [] []) "pwr?".toList = .ok s2 → s2.invoked = [.get_pw]) :=
  ⟨by decide, by decide, rfl,
   (C8_exact_name_calls_its_handler ⟨"pwr?".toList, .get_pw, "Print motor power".toList⟩
     (startup [] []) { startup [] [] with cmd := "pwr?".toList } "pwr?".toList [] 1
     (by decide) (by decide) rfl).1,
   (C8_exact_name_calls_its_handler ⟨"pwr?".toList, .get_pw, "Print motor power".toList⟩
     (startup [] []) { startup [] [] with cmd := "pwr?".toList } "pwr?".toList [] 1
     (by decide) (by decide) rfl).2.1⟩

/-- C9: a line whose command token has no `cmd_table` name as a prefix, the tokens
fitting the buffers `cmd` and `arg`, calls no handler: the dispatch returns,
nothing is printed, no actuator call is made, and `motor_power`, `motor_dir`
and `counts` are unchanged. -/
theorem C9_unknown_command_ignored (s : State) (line tok rest : List Char)
    (htok : scan_s (cstr line) = some (tok, rest))
    (hfit : tok.length < CMD_NAME_LEN)
    (hfit2 : ∀ tok2 rest2, scan_s rest = some (tok2, rest2) → tok2.length < CMD_ARG_LEN)
    (hno : ∀ e ∈ cmd_table, ¬ e.cmd_name <+: tok) :
    ∃ s1, dispatch s line = .ok s1 ∧ s1.invoked = s.invoked ∧ s1.stdout = s.stdout ∧
      s1.sp = s.sp ∧ s1.ams = s.ams ∧ s1.motor_power = s.motor_power ∧
      s1.motor_dir = s.motor_dir ∧ s1.counts = s.counts := by
  have hfind : find_cmd tok cmd_table = none := (find_cmd_none tok cmd_table).mpr hno
  cases h2 : scan_s rest with
  | none =>
    refine ⟨{ s with cmd := tok }, ?_, rfl, rfl, rfl, rfl, rfl, rfl, rfl⟩
    unfold dispatch
    rw [sscanf_ss_one line tok rest s htok hfit h2]
    simp only []
    rw [dispatch_loop_find]
    simp only [hfind]
  | some v =>
    obtain ⟨tok2, rest2⟩ := v
    refine ⟨{ s with cmd := tok, arg := tok2 }, ?_, rfl, rfl, rfl, rfl, rfl, rfl, rfl⟩
    unfold dispatch
    rw [sscanf_ss_two line tok rest tok2 rest2 s htok hfit h2 (hfit2 tok2 rest2 h2)]
    simp only []
    rw [dispatch_loop_find]
    simp only [hfind]

/-- Witness of C9: the line `bogus` in the startup state. -/
theorem C9_unknown_command_ignored_witness :
    scan_s (cstr "bogus".toList) = some ("bogus".toList, []) ∧
    "bogus".toList.length < CMD_NAME_LEN ∧
    (∀ tok2 rest2, scan_s [] = some (tok2, rest2) → tok2.length < CMD_ARG_LEN) ∧
    (∀ e ∈ cmd_table, ¬ e.cmd_name <+: "bogus".toList) ∧
    ∃ s1, dispatch (startup [] []) "bogus".toList = .ok s1 ∧
      s1.invoked = (startup [] []).invoked ∧ s1.stdout = (startup [] []).stdout ∧
      s1.sp = (startup [] []).sp ∧ s1.ams = (startup [] []).ams ∧
      s1.motor_power = (startup [] []).motor_power ∧
      s1.motor_dir = (startup [] []).motor_dir ∧ s1.counts = (startup [] []).counts :=
  ⟨by decide, by decide, by simp [scan_s_nil], by decide,
   C9_unknown_command_ignored (startup [] []) "bogus".toList "bogus".toList []
     (by decide) (by decide) (by simp [scan_s_nil]) (by decide)⟩

/-! ## Arguments of `set_pw` that are not integers -/

theorem takeWhile_head_false (l : List Char) (h : (l.head?.map isdigit).getD false = false) :
    l.takeWhile isdigit = [] := by
  cases l with
  | nil => rfl
  | cons c r =>
    simp only [List.head?_cons, Option.map_some', Option.getD_some] at h
    simp [List.takeWhile_cons, h]

theorem atoi_no_integer (arg : List Char) (h : has_leading_integer arg = false) :
    atoi arg = 0 := by
  unfold has_leading_integer at h
  unfold atoi
  simp only []
  split
  · rename_i r heq
    rw [heq] at h
    simp only [] at h
    rw [takeWhile_head_false r h]
    rfl
  · rename_i r heq
    rw [heq] at h
    simp only [] at h
    rw [takeWhile_head_false r h]
    rfl
  · rename_i hm hp
    split at h
    · rename_i r heq; exact absurd heq (hm r)
    · rename_i r heq; exact absurd heq (hp r)
    · rw [takeWhile_head_false _ h]
      rfl

/-- C10, counterexample: with `motor_power = 55`, `set_pw("abc")` does not fail: it
returns 0, overwrites the stored power with 0 and writes power 0 to the
actuator. -/
theorem C10_counterexample :
    has_leading_integer "abc".toList = false ∧
    ∃ s1, set_pw "abc".toList { startup [] [] with motor_power := 55 } = .ok (some 0, s1) ∧
      s1.motor_power = 0 ∧
      s1.motor_power ≠ ({ startup [] [] with motor_power := 55 } : State).motor_power ∧
      s1.ams = ({ startup [] [] with motor_power := 55 } : State).ams ++ [.SetMotorPower 0] ∧
      s1.stdout = ["setting pwr = 0\n".toList] := by
  refine ⟨by decide, _, set_pw_eq _ _, by decide, by decide, ?_, by decide⟩
  have h0 : atoi "abc".toList = 0 := by decide
  show _ ++ [ActuatorCall.SetMotorPower ((atoi "abc".toList : ℚ) / 100)] = _
  rw [h0]
  simp

/-- C10, amended: for every argument that does not start with an integer (after
white space and an optional sign), `set_pw` returns 0, stores
`motor_power = 0`, prints `setting pwr = 0` and writes power 0 to the
actuator. -/
theorem C10_set_pw_unparsable_stores_zero (arg : List Char) (s : State)
    (h : has_leading_integer arg = false) :
    set_pw arg s = .ok (some 0,
      { s with
        motor_power := 0
        stdout := s.stdout ++ ["setting pwr = 0\n".toList]
        ams := s.ams ++ [.SetMotorPower 0] }) := by
  rw [set_pw_eq, atoi_no_integer arg h]
  simp only [Int.cast_zero, zero_div]
  rfl

/-- Witness of C10 amended: the empty argument with `motor_power = 55`. -/
theorem C10_set_pw_unparsable_stores_zero_witness :
    has_leading_integer [] = false ∧
    set_pw [] { startup [] [] with motor_power := 55 } = .ok (some 0,
      { startup [] [] with
        motor_power := 0
        stdout := ["setting pwr = 0\n".toList]
        ams := (startup [] []).ams ++ [.SetMotorPower 0] }) :=
  ⟨by decide, C10_set_pw_unparsable_stores_zero [] { startup [] [] with motor_power := 55 }
    (by decide)⟩

/-! ## Handler equations, `help` and frame properties -/

theorem help_loop_eq (s : State) :
    help_loop s = { s with stdout := s.stdout ++ cmd_table.map help_line } := by
  simp [help_loop, cmd_table, State.printf, help_line]

theorem get_direction_eq (arg : List Char) (s : State) :
    get_direction arg s = .ok (some 0,
      { s with stdout := s.stdout ++ ["dir = ".toList ++ s.motor_dir.token ++ "\n".toList] }) := by
  cases hd : s.motor_dir <;> simp [get_direction, State.printf, hd, MOTOR_DIRECTION.token]

theorem read_speed_eq (arg : List Char) (s : State) (h : s.counts ≠ 0) :
    read_speed arg s = .ok (some 0,
      { s with
        stdout := s.stdout ++ ["speed = ".toList ++ fmt_d (to_int (60000 / s.counts)) ++
          "\n".toList] }) := by
  unfold read_speed
  rw [if_neg h]
  rfl

theorem read_speed_ok (arg : List Char) (s s1 : State) (r : Option Int)
    (h : read_speed arg s = .ok (r, s1)) :
    s.counts ≠ 0 ∧ r = some 0 ∧ s1 = { s with
        stdout := s.stdout ++ ["speed = ".toList ++ fmt_d (to_int (60000 / s.counts)) ++
          "\n".toList] } := by
  by_cases hc : s.counts = 0
  · unfold read_speed at h
    rw [if_pos hc] at h
    exact absurd h (by simp)
  · rw [read_speed_eq arg s hc] at h
    simp only [Except.ok.injEq, Prod.mk.injEq] at h
    exact ⟨hc, h.1.symm, h.2.symm⟩

theorem set_direction_other (arg : List Char) (s : State)
    (h1 : arg ≠ "fwd".toList) (h2 : arg ≠ "rev".toList) :
    set_direction arg s = .ok (some (-1), s) := by
  unfold set_direction
  rw [if_neg (by rw [strcmp_eq_zero]; exact h1), if_neg (by rw [strcmp_eq_zero]; exact h2)]

theorem set_direction_cases (arg : List Char) (s : State) :
    (∃ d : MOTOR_DIRECTION, arg = d.token) ∨ set_direction arg s = .ok (some (-1), s) := by
  by_cases h1 : arg = "fwd".toList
  · exact .inl ⟨.MOTOR_FWD, h1⟩
  · by_cases h2 : arg = "rev".toList
    · exact .inl ⟨.MOTOR_REV, h2⟩
    · exact .inr (set_direction_other arg s h1 h2)

theorem help_lines_nil :
    ([] : List (List Char)) ++ cmd_table.map help_line =
      ["pwr?: Print motor power\n".toList,
       "pwr: Set motor power\n".toList,
       "dir?: Print motor direction\n".toList,
       "dir: Set motor direction\n".toList,
       "spd?: Print motor speed (rpm)\n".toList,
       "help: Print some nice help\n".toList] := by
  decide

theorem dispatch_help (s : State) :
    dispatch s "help".toList = .error .missing_return := by
  unfold dispatch
  rw [sscanf_ss_name "help".toList s (by decide) (by decide) (by decide) (by decide)]
  simp only []
  rw [dispatch_loop_name ⟨"help".toList, .help, "Print some nice help".toList⟩ (by decide) _ rfl]
  rfl

/-- C13, the code at the failing input: in the startup state the loop of `help`
prints the six lines `<cmd_name>: <help>` in table order, and then the
function reaches its end without a `return` statement: `help`, called directly
or through the line `help`, has no defined result. -/
theorem C13_help_flows_off_its_end (cmd0 arg0 arg : List Char) :
    (help_loop (startup cmd0 arg0)).stdout =
      ["pwr?: Print motor power\n".toList,
       "pwr: Set motor power\n".toList,
       "dir?: Print motor direction\n".toList,
       "dir: Set motor direction\n".toList,
       "spd?: Print motor speed (rpm)\n".toList,
       "help: Print some nice help\n".toList] ∧
    help arg (startup cmd0 arg0) = .error .missing_return ∧
    dispatch (startup cmd0 arg0) "help".toList = .error .missing_return ∧
    run (startup cmd0 arg0) ["help".toList] = (startup cmd0 arg0, some .missing_return) := by
  refine ⟨?_, rfl, dispatch_help _, ?_⟩
  · rw [help_loop_eq]
    exact help_lines_nil
  · unfold run
    rw [dispatch_help]

theorem handler_frames (arg : List Char) (s : State) :
    (∃ s1, get_pw arg s = .ok (some 0, s1) ∧ s1.motor_power = s.motor_power ∧
      s1.motor_dir = s.motor_dir ∧ s1.counts = s.counts ∧ s1.ams = s.ams) ∧
    (∃ s1, get_direction arg s = .ok (some 0, s1) ∧ s1.motor_power = s.motor_power ∧
      s1.motor_dir = s.motor_dir ∧ s1.counts = s.counts ∧ s1.ams = s.ams) ∧
    ((s.counts ≠ 0 → ∃ s1, read_speed arg s = .ok (some 0, s1)) ∧
      ∀ r s1, read_speed arg s = .ok (r, s1) → s1.motor_power = s.motor_power ∧
        s1.motor_dir = s.motor_dir ∧ s1.counts = s.counts ∧ s1.ams = s.ams) ∧
    (∃ s1, set_pw arg s = .ok (some 0, s1) ∧ s1.motor_dir = s.motor_dir ∧
      s1.counts = s.counts ∧ s1.timer_ms = s.timer_ms) ∧
    (∃ r s1, set_direction arg s = .ok (r, s1) ∧ s1.motor_power = s.motor_power ∧
      s1.counts = s.counts ∧ s1.timer_ms = s.timer_ms) := by
  refine ⟨⟨_, get_pw_eq arg s, rfl, rfl, rfl, rfl⟩, ⟨_, get_direction_eq arg s, rfl, rfl, rfl, rfl⟩,
    ⟨?_, ?_⟩, ⟨_, set_pw_eq arg s, rfl, rfl, rfl⟩, ?_⟩
  · intro hc
    exact ⟨_, read_speed_eq arg s hc⟩
  · intro r s1 h
    obtain ⟨-, -, rfl⟩ := read_speed_ok arg s s1 r h
    exact ⟨rfl, rfl, rfl, rfl⟩
  · rcases set_direction_cases arg s with ⟨d, rfl⟩ | h
    · exact ⟨_, _, set_direction_valid s d, rfl, rfl, rfl⟩
    · exact ⟨_, _, h, rfl, rfl, rfl⟩

/-- C14, the code at the failing input: `help` in the startup state. Its loop
leaves `motor_power`, `motor_dir`, `counts` and the actuator trace as they
are, but the function then reaches its end without a `return` statement, so
the call has no result state of which the frame could hold. In the same state
`get_pw` and `get_direction` return with these fields unchanged, `set_pw`
returns with `motor_dir` and `counts` unchanged and `set_direction` with
`motor_power` and `counts` unchanged. -/
theorem C14_help_has_no_result_state (cmd0 arg0 arg : List Char) :
    (help arg (startup cmd0 arg0) = .error .missing_return ∧
      ∀ r s1, help arg (startup cmd0 arg0) ≠ .ok (r, s1)) ∧
    ((help_loop (startup cmd0 arg0)).motor_power = (startup cmd0 arg0).motor_power ∧
      (help_loop (startup cmd0 arg0)).motor_dir = (startup cmd0 arg0).motor_dir ∧
      (help_loop (startup cmd0 arg0)).counts = (startup cmd0 arg0).counts ∧
      (help_loop (startup cmd0 arg0)).ams = (startup cmd0 arg0).ams) ∧
    (∃ s1, get_pw arg (startup cmd0 arg0) = .ok (some 0, s1) ∧
      s1.motor_power = (startup cmd0 arg0).motor_power ∧
      s1.motor_dir = (startup cmd0 arg0).motor_dir ∧
      s1.counts = (startup cmd0 arg0).counts ∧ s1.ams = (startup cmd0 arg0).ams) ∧
    (∃ s1, get_direction arg (startup cmd0 arg0) = .ok (some 0, s1) ∧
      s1.motor_power = (startup cmd0 arg0).motor_power ∧
      s1.motor_dir = (startup cmd0 arg0).motor_dir ∧
      s1.counts = (startup cmd0 arg0).counts ∧ s1.ams = (startup cmd0 arg0).ams) ∧
    (∃ s1, set_pw arg (startup cmd0 arg0) = .ok (some 0, s1) ∧
      s1.motor_dir = (startup cmd0 arg0).motor_dir ∧
      s1.counts = (startup cmd0 arg0).counts) ∧
    (∃ r s1, set_direction arg (startup cmd0 arg0) = .ok (r, s1) ∧
      s1.motor_power = (startup cmd0 arg0).motor_power ∧
      s1.counts = (startup cmd0 arg0).counts) := by
  obtain ⟨h1, h2, -, ⟨s3, h3, h3d, h3c, -⟩, ⟨r4, s4, h4, h4p, h4c, -⟩⟩ :=
    handler_frames arg (startup cmd0 arg0)
  refine ⟨⟨rfl, fun r s1 => help_not_ok _ _ s1 r⟩, ?_, h1, h2, ⟨s3, h3, h3d, h3c⟩,
    ⟨r4, s4, h4, h4p, h4c⟩⟩
  rw [help_loop_eq]
  exact ⟨rfl, rfl, rfl, rfl⟩

/-- C15: the rising-edge handler `counter_read_reset`, the falling-edge handler
`led_reset` and the heartbeat `led2_blink` leave `motor_power` and `motor_dir`
unchanged and make no actuator call; `led_reset` and `led2_blink` also leave
`counts` and the timer unchanged, while `counter_read_reset` stores the timer
reading in `counts`. -/
theorem C15_async_handlers_frame (s : State) :
    ((counter_read_reset s).motor_power = s.motor_power ∧
      (counter_read_reset s).motor_dir = s.motor_dir ∧
      (counter_read_reset s).ams = s.ams ∧
      (counter_read_reset s).counts = to_uint32 s.timer_ms) ∧
    ((led_reset s).motor_power = s.motor_power ∧ (led_reset s).motor_dir = s.motor_dir ∧
      (led_reset s).ams = s.ams ∧ (led_reset s).counts = s.counts ∧
      (led_reset s).timer_ms = s.timer_ms) ∧
    ((led2_blink s).motor_power = s.motor_power ∧ (led2_blink s).motor_dir = s.motor_dir ∧
      (led2_blink s).ams = s.ams ∧ (led2_blink s).counts = s.counts ∧
      (led2_blink s).timer_ms = s.timer_ms) :=
  ⟨⟨rfl, rfl, rfl, rfl⟩, ⟨rfl, rfl, rfl, rfl, rfl⟩, ⟨rfl, rfl, rfl, rfl, rfl⟩⟩

theorem set_direction_same (s : State) :
    set_direction s.motor_dir.token s = .ok (some 0,
      { s with
        ams := s.ams ++ [.SetMotorPolarity s.motor_dir.toShield,
          .SetMotorPower ((s.motor_power : ℚ) / 100)]
        stdout := s.stdout ++
          ["Setting motor direction to ".toList ++ fmt_d s.motor_dir.toInt ++ "\n".toList] }) := by
  rw [set_direction_valid]
  simp

/-- C17: `set_direction` with the token of the current direction returns 0, leaves
`motor_dir`, `motor_power` and `counts` as they are, and issues exactly
`SetMotorPolarity(d)` then `SetMotorPower(motor_power/100)`, without a
`SetMotorPower(0.0)` in front. So a second call with the same valid token,
whatever the direction was before the first, keeps the motor state of the
first call and only reapplies polarity and power. -/
theorem C17_set_direction_idempotent (s : State) (d : MOTOR_DIRECTION) :
    (∃ s1, set_direction s.motor_dir.token s = .ok (some 0, s1) ∧
      s1.motor_dir = s.motor_dir ∧ s1.motor_power = s.motor_power ∧ s1.counts = s.counts ∧
      s1.ams = s.ams ++ [.SetMotorPolarity s.motor_dir.toShield,
        .SetMotorPower ((s.motor_power : ℚ) / 100)]) ∧
    (∃ s1 s2, set_direction d.token s = .ok (some 0, s1) ∧
      set_direction d.token s1 = .ok (some 0, s2) ∧
      s2.motor_dir = s1.motor_dir ∧ s2.motor_power = s1.motor_power ∧
      s2.counts = s1.counts ∧ s1.motor_dir = d ∧
      s2.ams = s1.ams ++ [.SetMotorPolarity d.toShield,
        .SetMotorPower ((s.motor_power : ℚ) / 100)]) := by
  refine ⟨⟨_, set_direction_same s, rfl, rfl, rfl, rfl⟩, ?_⟩
  refine ⟨_, _, set_direction_valid s d, set_direction_valid _ d, rfl, rfl, rfl, rfl, ?_⟩
  simp

/-! ## Prefix lookup -/

theorem find_cmd_first (tok : List Char) (tbl : List CMD_TABLE_ENTRY) (i : Nat)
    (hi : i < tbl.length) (hp : (tbl.get ⟨i, hi⟩).cmd_name <+: tok)
    (hmin : ∀ j (hj : j < i), ¬ (tbl.get ⟨j, Nat.lt_trans hj hi⟩).cmd_name <+: tok) :
    find_cmd tok tbl = some (tbl.get ⟨i, hi⟩) := by
  induction tbl generalizing i with
  | nil => exact absurd hi (Nat.not_lt_zero _)
  | cons e rest ih =>
    unfold find_cmd
    cases i with
    | zero =>
      have hp0 : e.cmd_name <+: tok := hp
      rw [if_pos ((strncmp_strlen _ _).mpr hp0)]
      rfl
    | succ i =>
      have h0 : ¬ e.cmd_name <+: tok := hmin 0 (Nat.succ_pos i)
      rw [if_neg (fun h => h0 ((strncmp_strlen _ _).mp h))]
      exact ih i (Nat.lt_of_succ_lt_succ hi) hp
        (fun j hj => hmin (j + 1) (Nat.succ_lt_succ hj))

theorem dispatch_find (s s1 : State) (line : List Char) (n : Int)
    (hs : sscanf_ss line s = .ok (n, s1)) :
    dispatch s line =
      match find_cmd s1.cmd cmd_table with
      | none => .ok s1
      | some e =>
        (e.cmd.call s1.arg { s1 with invoked := s.invoked ++ [e.cmd] }).map Prod.snd := by
  have hi : s1.invoked = s.invoked := by rw [sscanf_ss_fields line s s1 n hs]
  unfold dispatch
  rw [hs]
  simp only []
  rw [dispatch_loop_find, hi]

theorem map_snd_invoked (p : CMD_PTR_T) (arg : List Char) (s s2 : State)
    (h : (p.call arg s).map Prod.snd = .ok s2) : s2.invoked = s.invoked := by
  cases hcall : p.call arg s with
  | error f => rw [hcall] at h; exact absurd h (by simp [Except.map])
  | ok v =>
    rw [hcall] at h
    simp only [Except.map, Except.ok.injEq] at h
    rw [← h]
    exact call_invoked _ _ _ _ v.1 hcall

/-- C16: for a line with command token `tok`, the lookup selects the `cmd_table`
entry of smallest index whose name is a prefix of `tok`: the dispatch is one
call of that entry's handler on the scanned argument, and the calls made by
the lookup loop grow by that handler alone; when no name is a prefix of
`tok`, no handler is called. -/
theorem C16_first_prefix_entry_wins (s s1 : State) (line tok rest : List Char) (n : Int)
    (htok : scan_s (cstr line) = some (tok, rest))
    (hs : sscanf_ss line s = .ok (n, s1)) :
    (∀ i (hi : i < cmd_table.length),
      (cmd_table.get ⟨i, hi⟩).cmd_name <+: tok →
      (∀ j (hj : j < i), ¬ (cmd_table.get ⟨j, Nat.lt_trans hj hi⟩).cmd_name <+: tok) →
      dispatch s line =
          ((cmd_table.get ⟨i, hi⟩).cmd.call s1.arg
            { s1 with invoked := s.invoked ++ [(cmd_table.get ⟨i, hi⟩).cmd] }).map Prod.snd ∧
        ∀ s2, dispatch s line = .ok s2 →
          s2.invoked = s.invoked ++ [(cmd_table.get ⟨i, hi⟩).cmd]) ∧
    ((∀ e ∈ cmd_table, ¬ e.cmd_name <+: tok) →
      dispatch s line = .ok s1 ∧ s1.invoked = s.invoked) := by
  have hc : s1.cmd = tok := sscanf_ss_cmd line tok rest s s1 n htok hs
  have hd := dispatch_find s s1 line n hs
  constructor
  · intro i hi hp hmin
    have hf : find_cmd s1.cmd cmd_table = some (cmd_table.get ⟨i, hi⟩) := by
      rw [hc]; exact find_cmd_first tok cmd_table i hi hp hmin
    rw [hf] at hd
    simp only [] at hd
    refine ⟨hd, ?_⟩
    intro s2 h2
    rw [hd] at h2
    exact map_snd_invoked _ _ _ _ h2
  · intro hno
    have hf : find_cmd s1.cmd cmd_table = none := by
      rw [hc]; exact (find_cmd_none tok cmd_table).mpr hno
    rw [hf] at hd
    simp only [] at hd
    exact ⟨hd, by rw [sscanf_ss_fields line s s1 n hs]⟩

/-- Witness of C16: in the startup state the line `pwrful` calls `set_pw`, the line
`pwr?x` calls `get_pw` and the line `helpme` calls `help`, and the line `bogus`
calls nothing. -/
theorem C16_first_prefix_entry_wins_witness :
    scan_s (cstr "pwrful".toList) = some ("pwrful".toList, []) ∧
    sscanf_ss "pwrful".toList (startup [] [])
      = .ok (1, { startup [] [] with cmd := "pwrful".toList }) ∧
    (dispatch (startup [] []) "pwrful".toList
        = (set_pw [] { startup [] [] with cmd := "pwrful".toList, invoked := [.set_pw] }).map
            Prod.snd ∧
      ∀ s2, dispatch (startup [] []) "pwrful".toList = .ok s2 → s2.invoked = [.set_pw]) ∧
    (dispatch (startup [] []) "pwr?x".toList
        = (get_pw [] { startup [] [] with cmd := "pwr?x".toList, invoked := [.get_pw] }).map
            Prod.snd ∧
      ∀ s2, dispatch (startup [] []) "pwr?x".toList = .ok s2 → s2.invoked = [.get_pw]) ∧
    (dispatch (startup [] []) "helpme".toList
        = (help [] { startup [] [] with cmd := "helpme".toList, invoked := [.help] }).map
            Prod.snd ∧
      ∀ s2, dispatch (startup [] []) "helpme".toList = .ok s2 → s2.invoked = [.help]) ∧
    (dispatch (startup [] []) "bogus".toList
        = .ok { startup [] [] with cmd := "bogus".toList } ∧
      ({ startup [] [] with cmd := "bogus".toList } : State).invoked = []) :=
  ⟨by decide, rfl,
   (C16_first_prefix_entry_wins (startup [] []) { startup [] [] with cmd := "pwrful".toList }
     "pwrful".toList "pwrful".toList [] 1 (by decide) rfl).1 1 (by decide) (by decide)
     (by decide),
   (C16_first_prefix_entry_wins (startup [] []) { startup [] [] with cmd := "pwr?x".toList }
     "pwr?x".toList "pwr?x".toList [] 1 (by decide) rfl).1 0 (by decide) (by decide)
     (by decide),
   (C16_first_prefix_entry_wins (startup [] []) { startup [] [] with cmd := "helpme".toList }
     "helpme".toList "helpme".toList [] 1 (by decide) rfl).1 5 (by decide) (by decide)
     (by decide),
   (C16_first_prefix_entry_wins (startup [] []) { startup [] [] with cmd := "bogus".toList }
     "bogus".toList "bogus".toList [] 1 (by decide) rfl).2 (by decide)⟩

/-! ## Power range and agreement of model and actuator -/

theorem call_effect (p : CMD_PTR_T) (arg : List Char) (s s1 : State) (r : Option Int)
    (h : p.call arg s = .ok (r, s1)) :
    (s1.motor_power = s.motor_power ∧ s1.motor_dir = s.motor_dir ∧ s1.ams = s.ams) ∨
    (p = .set_pw ∧ s1.motor_power = atoi arg ∧ s1.motor_dir = s.motor_dir ∧
      s1.ams = s.ams ++ [.SetMotorPower ((s1.motor_power : ℚ) / 100)]) ∨
    (s1.motor_power = s.motor_power ∧
      s1.ams = (if s.motor_dir ≠ s1.motor_dir then s.ams ++ [.SetMotorPower 0] else s.ams) ++
        [.SetMotorPolarity s1.motor_dir.toShield,
         .SetMotorPower ((s.motor_power : ℚ) / 100)]) := by
  cases p
  · rw [CMD_PTR_T.call, get_pw_eq] at h
    simp only [Except.ok.injEq, Prod.mk.injEq] at h
    obtain ⟨-, rfl⟩ := h
    exact .inl ⟨rfl, rfl, rfl⟩
  · rw [CMD_PTR_T.call, set_pw_eq] at h
    simp only [Except.ok.injEq, Prod.mk.injEq] at h
    obtain ⟨-, rfl⟩ := h
    exact .inr (.inl ⟨rfl, rfl, rfl, rfl⟩)
  · rw [CMD_PTR_T.call, get_direction_eq] at h
    simp only [Except.ok.injEq, Prod.mk.injEq] at h
    obtain ⟨-, rfl⟩ := h
    exact .inl ⟨rfl, rfl, rfl⟩
  · rw [CMD_PTR_T.call] at h
    rcases set_direction_cases arg s with ⟨d, rfl⟩ | h2
    · rw [set_direction_valid] at h
      simp only [Except.ok.injEq, Prod.mk.injEq] at h
      obtain ⟨-, rfl⟩ := h
      exact .inr (.inr ⟨rfl, rfl⟩)
    · rw [h2] at h
      simp only [Except.ok.injEq, Prod.mk.injEq] at h
      obtain ⟨-, rfl⟩ := h
      exact .inl ⟨rfl, rfl, rfl⟩
  · rw [CMD_PTR_T.call] at h
    obtain ⟨-, -, rfl⟩ := read_speed_ok arg s s1 r h
    exact .inl ⟨rfl, rfl, rfl⟩
  · exact absurd h (help_not_ok arg s s1 r)

theorem dispatch_effect (s s2 : State) (line : List Char) (h : dispatch s line = .ok s2) :
    (s2.motor_power = s.motor_power ∧ s2.motor_dir = s.motor_dir ∧ s2.ams = s.ams) ∨
    (set_pw_value s line = some s2.motor_power ∧ s2.motor_dir = s.motor_dir ∧
      s2.ams = s.ams ++ [.SetMotorPower ((s2.motor_power : ℚ) / 100)]) ∨
    (s2.motor_power = s.motor_power ∧
      s2.ams = (if s.motor_dir ≠ s2.motor_dir then s.ams ++ [.SetMotorPower 0] else s.ams) ++
        [.SetMotorPolarity s2.motor_dir.toShield,
         .SetMotorPower ((s.motor_power : ℚ) / 100)]) := by
  cases hs : sscanf_ss line s with
  | error f =>
    unfold dispatch at h
    rw [hs] at h
    exact absurd h (by simp)
  | ok v =>
    obtain ⟨n, s1⟩ := v
    have hf := sscanf_ss_fields line s s1 n hs
    have hp : s1.motor_power = s.motor_power := by rw [hf]
    have hd : s1.motor_dir = s.motor_dir := by rw [hf]
    have ha : s1.ams = s.ams := by rw [hf]
    rw [dispatch_find s s1 line n hs] at h
    cases hfind : find_cmd s1.cmd cmd_table with
    | none =>
      rw [hfind] at h
      simp only [Except.ok.injEq] at h
      subst h
      exact .inl ⟨hp, hd, ha⟩
    | some e =>
      rw [hfind] at h
      simp only [] at h
      cases hcall : e.cmd.call s1.arg { s1 with invoked := s.invoked ++ [e.cmd] } with
      | error f => rw [hcall] at h; exact absurd h (by simp [Except.map])
      | ok w =>
        rw [hcall] at h
        simp only [Except.map, Except.ok.injEq] at h
        obtain ⟨r, s3⟩ := w
        simp only at h
        subst h
        rcases call_effect _ _ _ _ _ hcall with ⟨h1, h2, h3⟩ | ⟨h0, h1, h2, h3⟩ | ⟨h1, h3⟩
        · exact .inl ⟨h1.trans hp, h2.trans hd, h3.trans ha⟩
        · refine .inr (.inl ⟨?_, h2.trans hd, by rw [h3]; simp only [ha]⟩)
          unfold set_pw_value
          rw [hs]
          simp only [hfind, h0, if_true, h1]
        · refine .inr (.inr ⟨h1.trans hp, ?_⟩)
          rw [h3]
          simp only [ha, hd, hp]

theorem inSync_step (s s2 : State) (line : List Char) (h : dispatch s line = .ok s2)
    (hi : InSync s) : InSync s2 := by
  obtain ⟨hpol, hpw⟩ := hi
  rcases dispatch_effect s s2 line h with ⟨h1, h2, h3⟩ | ⟨-, h2, h3⟩ | ⟨h1, h3⟩
  · exact ⟨by rw [h3, h2, hpol], by rw [h3, h1, hpw]⟩
  · constructor
    · rw [h3, last_polarity_append, hpol, h2]; rfl
    · rw [h3, last_power_append]; rfl
  · constructor
    · rw [h3, last_polarity_append]; rfl
    · rw [h3, last_power_append, h1]; rfl

theorem inSync_startup (cmd0 arg0 : List Char) : InSync (startup cmd0 arg0) := by
  constructor
  · rfl
  · show some (((0 : Int) : ℚ)) = some (((0 : Int) : ℚ) / 100)
    simp

theorem inSync_run (lines : List (List Char)) (s : State) (hi : InSync s) :
    InSync (run s lines).1 := by
  induction lines generalizing s with
  | nil => exact hi
  | cons line rest ih =>
    unfold run
    cases hd : dispatch s line with
    | error f => exact hi
    | ok s1 => exact ih s1 (inSync_step s s1 line hd hi)

/-- C19: from the startup state, after every dispatched sequence of command lines,
the polarity last written to the actuator is that of `motor_dir` and the power
fraction last written is `motor_power / 100`. -/
theorem C19_model_and_actuator_in_sync (cmd0 arg0 : List Char) (lines : List (List Char)) :
    last_polarity none (run (startup cmd0 arg0) lines).1.ams
      = some (run (startup cmd0 arg0) lines).1.motor_dir.toShield ∧
    last_power none (run (startup cmd0 arg0) lines).1.ams
      = some (((run (startup cmd0 arg0) lines).1.motor_power : ℚ) / 100) :=
  inSync_run lines _ (inSync_startup cmd0 arg0)

theorem power_fraction_in_range (v : Int) (h0 : 0 ≤ v) (h1 : v ≤ 100) :
    power_call_in_range (.SetMotorPower ((v : ℚ) / 100)) := by
  have a0 : (0 : ℚ) ≤ (v : ℚ) := by exact_mod_cast h0
  have a1 : (v : ℚ) ≤ 100 := by exact_mod_cast h1
  exact ⟨div_nonneg a0 (by norm_num), by rw [div_le_one (by norm_num)]; exact a1⟩

theorem powerInRange_step (s s2 : State) (line : List Char) (h : dispatch s line = .ok s2)
    (hv : ∀ v, set_pw_value s line = some v → 0 ≤ v ∧ v ≤ 100)
    (hi : PowerInRange s) : PowerInRange s2 := by
  obtain ⟨h0, h100, hall⟩ := hi
  rcases dispatch_effect s s2 line h with ⟨h1, -, h3⟩ | ⟨h1, -, h3⟩ | ⟨h1, h3⟩
  · exact ⟨by rw [h1]; exact h0, by rw [h1]; exact h100, by rw [h3]; exact hall⟩
  · obtain ⟨v0, v100⟩ := hv _ h1
    refine ⟨v0, v100, ?_⟩
    rw [h3]
    intro c hc
    rcases List.mem_append.mp hc with hc | hc
    · exact hall c hc
    · rw [List.mem_singleton.mp hc]
      exact power_fraction_in_range _ v0 v100
  · refine ⟨by rw [h1]; exact h0, by rw [h1]; exact h100, ?_⟩
    rw [h3]
    intro c hc
    have hz : power_call_in_range (.SetMotorPower 0) := ⟨le_refl _, by norm_num⟩
    rcases List.mem_append.mp hc with hc | hc
    · split at hc
      · rcases List.mem_append.mp hc with hc | hc
        · exact hall c hc
        · rw [List.mem_singleton.mp hc]; exact hz
      · exact hall c hc
    · simp only [List.mem_cons, List.mem_singleton, List.not_mem_nil, or_false] at hc
      rcases hc with rfl | rfl
      · trivial
      · exact power_fraction_in_range _ h0 h100

theorem powerInRange_startup (cmd0 arg0 : List Char) : PowerInRange (startup cmd0 arg0) := by
  refine ⟨le_refl _, (by decide : (0 : Int) ≤ 100), ?_⟩
  intro c hc
  simp only [startup, List.mem_cons, List.mem_singleton, List.not_mem_nil, or_false] at hc
  rcases hc with rfl | rfl
  · trivial
  · exact ⟨by simp, by simp⟩

theorem powerInRange_run (lines : List (List Char)) (s : State)
    (hargs : power_args_in_range s lines = true) (hi : PowerInRange s) :
    PowerInRange (run s lines).1 := by
  induction lines generalizing s with
  | nil => exact hi
  | cons line rest ih =>
    unfold power_args_in_range at hargs
    rw [Bool.and_eq_true] at hargs
    obtain ⟨hv, hrest⟩ := hargs
    unfold run
    cases hd : dispatch s line with
    | error f => exact hi
    | ok s1 =>
      rw [hd] at hrest
      refine ih s1 hrest (powerInRange_step s s1 line hd ?_ hi)
      intro v hval
      rw [hval] at hv
      simpa using hv

/-- C11, counterexample: `set_pw` does not clamp. After the line `pwr 150` the
stored power is 150 and the fraction written is 150/100; after the line
`pwr -5` the stored power is -5 and the fraction written is -5/100. -/
theorem C11_counterexample :
    ((run (startup [] []) ["pwr 150".toList]).1.motor_power = 150 ∧
      (run (startup [] []) ["pwr 150".toList]).1.ams =
        [.SetMotorPolarity .MOTOR_FORWARD, .SetMotorPower ((0 : Int) : ℚ),
         .SetMotorPower (((150 : Int) : ℚ) / 100)] ∧
      ¬ PowerInRange (run (startup [] []) ["pwr 150".toList]).1) ∧
    ((run (startup [] []) ["pwr -5".toList]).1.motor_power = -5 ∧
      (run (startup [] []) ["pwr -5".toList]).1.ams =
        [.SetMotorPolarity .MOTOR_FORWARD, .SetMotorPower ((0 : Int) : ℚ),
         .SetMotorPower (((-5 : Int) : ℚ) / 100)] ∧
      ¬ PowerInRange (run (startup [] []) ["pwr -5".toList]).1) := by
  have a1 : (run (startup [] []) ["pwr 150".toList]).1.motor_power = 150 := by decide
  have a2 : (run (startup [] []) ["pwr -5".toList]).1.motor_power = -5 := by decide
  refine ⟨⟨a1, rfl, ?_⟩, ⟨a2, rfl, ?_⟩⟩
  · intro h
    have := h.2.1
    rw [a1] at this
    exact absurd this (by decide)
  · intro h
    have := h.1
    rw [a2] at this
    exact absurd this (by decide)

/-- C11, amended: from the startup state, along a sequence of command lines in
which every value handed to `set_pw` is in `0..100`, the stored `motor_power`
stays in `0..100` and every power fraction passed to `SetMotorPower` is in
`[0.0, 1.0]`. -/
theorem C11_power_in_range_when_inputs_are (cmd0 arg0 : List Char) (lines : List (List Char))
    (hargs : power_args_in_range (startup cmd0 arg0) lines = true) :
    0 ≤ (run (startup cmd0 arg0) lines).1.motor_power ∧
    (run (startup cmd0 arg0) lines).1.motor_power ≤ 100 ∧
    ∀ q, ActuatorCall.SetMotorPower q ∈ (run (startup cmd0 arg0) lines).1.ams →
      0 ≤ q ∧ q ≤ 1 := by
  obtain ⟨h0, h1, hall⟩ := powerInRange_run lines _ hargs (powerInRange_startup cmd0 arg0)
  exact ⟨h0, h1, fun q hq => hall _ hq⟩

/-- Witness of C11 amended: the lines `pwr 55`, `dir rev`, `pwr 100`, `dir` and
`pwr?`. -/
theorem C11_power_in_range_when_inputs_are_witness :
    power_args_in_range (startup [] [])
      ["pwr 55".toList, "dir rev".toList, "pwr 100".toList, "dir".toList, "pwr?".toList]
      = true ∧
    0 ≤ (run (startup [] [])
      ["pwr 55".toList, "dir rev".toList, "pwr 100".toList, "dir".toList,
       "pwr?".toList]).1.motor_power ∧
    (run (startup [] [])
      ["pwr 55".toList, "dir rev".toList, "pwr 100".toList, "dir".toList,
       "pwr?".toList]).1.motor_power ≤ 100 ∧
    ∀ q, ActuatorCall.SetMotorPower q ∈ (run (startup [] [])
      ["pwr 55".toList, "dir rev".toList, "pwr 100".toList, "dir".toList,
       "pwr?".toList]).1.ams → 0 ≤ q ∧ q ≤ 1 :=
  ⟨by decide, C11_power_in_range_when_inputs_are [] [] _ (by decide)⟩

/-! ## Lines without an argument and empty lines -/

/-- C12, the code at the failing input: `sscanf` leaves `arg` as it was when the
line has no second token, so the handler receives the argument of an earlier
line. After the line `dir rev`, the line `dir` calls `set_direction("rev")`
again (a second reply, two more actuator calls) instead of failing on an empty
argument, and the line `pwr` calls `set_pw("rev")`. After `dir 75` the line
`pwr` stores 75, after `dir 20` it stores 20, the motor state before it being
the same. -/
theorem C12_stale_argument_reused :
    ((run (startup [] []) ["dir rev".toList, "dir".toList]).1.invoked
        = [.set_direction, .set_direction] ∧
      (run (startup [] []) ["dir rev".toList, "dir".toList]).1.stdout
        = ["Setting motor direction to 1\n".toList, "Setting motor direction to 1\n".toList] ∧
      (run (startup [] []) ["dir rev".toList, "dir".toList]).1.ams
        = (run (startup [] []) ["dir rev".toList]).1.ams ++
          [.SetMotorPolarity .MOTOR_BACKWARD, .SetMotorPower (((0 : Int) : ℚ) / 100)]) ∧
    ((run (startup [] []) ["dir rev".toList]).1.arg = "rev".toList ∧
      dispatch (run (startup [] []) ["dir rev".toList]).1 "pwr".toList
        = (set_pw "rev".toList
            { (run (startup [] []) ["dir rev".toList]).1 with
              cmd := "pwr".toList
              invoked := [.set_direction, .set_pw] }).map Prod.snd) ∧
    ((run (startup [] []) ["dir 75".toList]).1.motor_power = 0 ∧
      (run (startup [] []) ["dir 20".toList]).1.motor_power = 0 ∧
      (run (startup [] []) ["dir 75".toList, "pwr".toList]).1.motor_power = 75 ∧
      (run (startup [] []) ["dir 20".toList, "pwr".toList]).1.motor_power = 20) :=
  ⟨⟨by decide, by decide, rfl⟩, ⟨by decide, rfl⟩, ⟨by decide, by decide, by decide, by decide⟩⟩

/-- C18, the code at the failing input: the characters `pwr 55\r\n` complete the
line `pwr 55` and then an empty line; `sscanf` assigns nothing for the empty
line, `cmd` and `arg` still hold `pwr` and `55`, and the lookup runs again:
`set_pw` is called twice and the reply is written twice. -/
theorem C18_empty_line_repeats_command :
    (console_run (startup [] []) "pwr 55\r\n".toList).2 = none ∧
    (console_run (startup [] []) "pwr 55\r\n".toList).1.invoked = [.set_pw, .set_pw] ∧
    (console_run (startup [] []) "pwr 55\r\n".toList).1.stdout
      = ["setting pwr = 55\n".toList, "setting pwr = 55\n".toList] ∧
    (console_run (startup [] []) "pwr 55\r\n".toList).1.ams
      = (startup [] []).ams ++
        [.SetMotorPower (((55 : Int) : ℚ) / 100), .SetMotorPower (((55 : Int) : ℚ) / 100)] ∧
    (console_run (startup [] []) "pwr 55\r".toList).1.invoked = [.set_pw] ∧
    sscanf_ss [] (console_run (startup [] []) "pwr 55\r".toList).1
      = .ok (-1, (console_run (startup [] []) "pwr 55\r".toList).1) :=
  ⟨by decide, by decide, by decide, rfl, by decide, rfl⟩

end AvcTestDevice
